import Mathlib

/-
Verification of the laser test-grid marker (grid_v1.py / grid_v2.py).

The embedding models the non-GUI core of the two scripts: axis value
generation (`_generate_values`), grid application (`apply_ranges`), the
split-grid layout (`_create_split_grids` / `_build_grid`), note editing
(`edit_note`), CSV export of annotated cells (`export_to_csv`) and the
CSV reload (`load_from_csv`), plus the row-matching helpers of grid_v1.

Python floats are modelled as exact fractions (`PyF`, a numerator /
denominator pair of integers with structural arithmetic).  All values that
occur in the scripts are short decimal literals and linear interpolations
of them, for which the exact-rational idealization agrees with IEEE
doubles at the printed precisions used by the scripts.  Python's banker's
rounding (`round`) is modelled exactly (`pyRound`), and the `%.Nf` format
specifiers are modelled by rounding the exact value (`fmtFixed`).
-/

namespace Laser

/-! ## Python string primitives -/

/-- ASCII whitespace test used to model Python's `str.strip` (the scripts
only ever see ASCII whitespace). -/
def isSpaceChar (c : Char) : Bool :=
  c == ' ' || c == '\t' || c == '\n' || c == '\r'

/-- Python `str.strip()`: drop leading and trailing whitespace. -/
def pyStrip (s : String) : String :=
  String.mk (((s.data.dropWhile isSpaceChar).reverse.dropWhile isSpaceChar).reverse)

/-- Python string slicing `s[:n]` (by code points, which is what both
`len` and slicing count in Python). -/
def pyTake (s : String) (n : ℕ) : String :=
  String.mk (s.data.take n)

/-- Numeric value of a list of decimal digit characters. -/
def digitsToNat (l : List Char) : ℕ :=
  l.foldl (fun a c => a * 10 + (c.toNat - 48)) 0

/-- Non-empty, all-digits test. -/
def allDigits (l : List Char) : Bool :=
  !l.isEmpty && l.all Char.isDigit

/-! ## Python floats as exact fractions -/

/-- A Python float value, modelled as an exact fraction.  Every value the
scripts build has a positive denominator; theorems carry `0 < den`
hypotheses where it matters. -/
structure PyF where
  num : ℤ
  den : ℤ
  deriving DecidableEq

def PyF.ofInt (n : ℤ) : PyF := ⟨n, 1⟩

def PyF.add (a b : PyF) : PyF := ⟨a.num * b.den + b.num * a.den, a.den * b.den⟩

def PyF.sub (a b : PyF) : PyF := ⟨a.num * b.den - b.num * a.den, a.den * b.den⟩

def PyF.mul (a b : PyF) : PyF := ⟨a.num * b.num, a.den * b.den⟩

def PyF.div (a b : PyF) : PyF := ⟨a.num * b.den, a.den * b.num⟩

def PyF.neg (a : PyF) : PyF := ⟨-a.num, a.den⟩

/-- Value-level strict order (valid when both denominators are positive). -/
def PyF.blt (a b : PyF) : Bool := decide (a.num * b.den < b.num * a.den)

/-- Value-level equality (valid when both denominators are positive);
models Python float `==`. -/
def PyF.beqv (a b : PyF) : Bool := decide (a.num * b.den = b.num * a.den)

def PyF.isNeg (a : PyF) : Bool := a.blt (PyF.ofInt 0)

def PyF.absv (a : PyF) : PyF := if a.isNeg then a.neg else a

/-- Floor of the value (valid when the denominator is positive). -/
def PyF.floorv (a : PyF) : ℤ := a.num.fdiv a.den

/-- The rational value of a modelled float; used only in specifications
and proofs, never evaluated by the kernel. -/
def PyF.val (a : PyF) : ℚ := (a.num : ℚ) / (a.den : ℚ)

/-! ## Parsing (Python `float(...)` and `int(...)` on the literals the
scripts use: optional sign, digits, optional decimal point) -/

/-- Parse an unsigned decimal literal (digit string with an optional
decimal point) to a `PyF`. -/
def parseUnsigned? (l : List Char) : Option PyF :=
  match l.dropWhile (fun c => c ≠ '.') with
  | [] =>
    if allDigits (l.takeWhile (fun c => c ≠ '.')) then
      some (PyF.ofInt (digitsToNat (l.takeWhile (fun c => c ≠ '.'))))
    else none
  | _ :: fp =>
    if (l.takeWhile (fun c => c ≠ '.')).all Char.isDigit && fp.all Char.isDigit &&
        !((l.takeWhile (fun c => c ≠ '.')).isEmpty && fp.isEmpty) then
      some ⟨(digitsToNat (l.takeWhile (fun c => c ≠ '.')) : ℤ) * 10 ^ fp.length +
             (digitsToNat fp : ℤ), (10 : ℤ) ^ fp.length⟩
    else none

/-- Python `float(s)` on plain decimal literals (the only numeric shape
the scripts produce); anything else fails like `float` raising
`ValueError`. -/
def parseFloat? (s : String) : Option PyF :=
  match (pyStrip s).data with
  | '-' :: rest => (parseUnsigned? rest).map PyF.neg
  | '+' :: rest => parseUnsigned? rest
  | l => parseUnsigned? l

/-- Python `int(s)` on plain integer literals. -/
def parseInt? (s : String) : Option ℤ :=
  match (pyStrip s).data with
  | '-' :: rest => if allDigits rest then some (-(digitsToNat rest : ℤ)) else none
  | '+' :: rest => if allDigits rest then some ((digitsToNat rest : ℤ)) else none
  | l => if allDigits l then some ((digitsToNat l : ℤ)) else none

/-! ## Rounding and formatting -/

def pyHalf : PyF := ⟨1, 2⟩

/-- Python's `round(x)` (banker's rounding to the nearest integer,
ties to even), on the exact value. -/
def pyRound (q : PyF) : ℤ :=
  let f := q.floorv
  let r := q.sub (PyF.ofInt f)
  if r.blt pyHalf then f
  else if pyHalf.blt r then f + 1
  else if f % 2 = 0 then f else f + 1

/-- The same banker's rounding expressed on ℚ; specification-level twin
of `pyRound`. -/
def pyRoundQ (x : ℚ) : ℤ :=
  let f := ⌊x⌋
  let r := x - (f : ℚ)
  if r < 1 / 2 then f
  else if 1 / 2 < r then f + 1
  else if f % 2 = 0 then f else f + 1

/-- Left-pad a digit string with zeros to width `d`. -/
def padZeros (s : String) (d : ℕ) : String :=
  String.mk (List.replicate (d - s.length) '0') ++ s

/-- Python `f-string` fixed-point formatting `{v:.df}` for `d ≥ 1`, on
the exact value (rounds ties to even like CPython's float repr logic on
the exact rational). -/
def fmtFixed (d : ℕ) (q : PyF) : String :=
  let sign := if q.isNeg then "-" else ""
  let n := (pyRound (q.absv.mul (PyF.ofInt ((10 : ℤ) ^ d)))).toNat
  sign ++ toString (n / 10 ^ d) ++ "." ++ padZeros (toString (n % 10 ^ d)) d

/-- Specification-level twin of `fmtFixed` on ℚ. -/
def fmtFixedQ (d : ℕ) (x : ℚ) : String :=
  let sign := if x < 0 then "-" else ""
  let n := (pyRoundQ (|x| * (10 : ℚ) ^ d)).toNat
  sign ++ toString (n / 10 ^ d) ++ "." ++ padZeros (toString (n % 10 ^ d)) d

/-- Number of decimal places needed to write `a` exactly (values in the
scripts are short terminating decimals; 30 is an unreachable cap). -/
def decExp (a : PyF) : ℕ :=
  ((List.range 30).find? (fun k => (a.num * (10 : ℤ) ^ k) % a.den == 0)).getD 30

/-- Python `str(x)` for a float holding a short terminating decimal:
the shortest decimal digits of the value, with at least one fractional
digit (`str(4000.0) = "4000.0"`, `str(0.0250) = "0.025"`). -/
def pyStrFloat (a : PyF) : String :=
  let sign := if a.isNeg then "-" else ""
  let b := a.absv
  let d := max 1 (decExp b)
  let n := ((b.num * (10 : ℤ) ^ d).fdiv b.den).toNat
  sign ++ toString (n / 10 ^ d) ++ "." ++ padZeros (toString (n % 10 ^ d)) d

end Laser

namespace Laser

/-! ## Bridge lemmas: `PyF` operations compute their rational values -/

theorem fdiv_eq_floor (n d : ℤ) (h : 0 < d) : Int.fdiv n d = ⌊(n : ℚ) / (d : ℚ)⌋ := by
  have hd : d = (d.toNat : ℤ) := by omega
  rw [Int.fdiv_eq_ediv _ (by omega)]
  rw [show ((d : ℚ)) = ((d.toNat : ℕ) : ℚ) by exact_mod_cast hd]
  rw [Rat.floor_intCast_div_natCast, hd]
  rfl

theorem PyF.val_ofInt (n : ℤ) : (PyF.ofInt n).val = (n : ℚ) := by
  simp [PyF.ofInt, PyF.val]

theorem PyF.val_add (a b : PyF) (ha : a.den ≠ 0) (hb : b.den ≠ 0) :
    (a.add b).val = a.val + b.val := by
  have ha2 : (a.den : ℚ) ≠ 0 := by exact_mod_cast ha
  have hb2 : (b.den : ℚ) ≠ 0 := by exact_mod_cast hb
  simp only [PyF.add, PyF.val]
  push_cast
  field_simp

theorem PyF.val_sub (a b : PyF) (ha : a.den ≠ 0) (hb : b.den ≠ 0) :
    (a.sub b).val = a.val - b.val := by
  have ha2 : (a.den : ℚ) ≠ 0 := by exact_mod_cast ha
  have hb2 : (b.den : ℚ) ≠ 0 := by exact_mod_cast hb
  simp only [PyF.sub, PyF.val]
  push_cast
  field_simp
  ring

theorem PyF.val_mul (a b : PyF) (ha : a.den ≠ 0) (hb : b.den ≠ 0) :
    (a.mul b).val = a.val * b.val := by
  have ha2 : (a.den : ℚ) ≠ 0 := by exact_mod_cast ha
  have hb2 : (b.den : ℚ) ≠ 0 := by exact_mod_cast hb
  simp only [PyF.mul, PyF.val]
  push_cast
  field_simp

theorem PyF.val_div (a b : PyF) (ha : a.den ≠ 0) (hb : b.den ≠ 0) (hn : b.num ≠ 0) :
    (a.div b).val = a.val / b.val := by
  have ha2 : (a.den : ℚ) ≠ 0 := by exact_mod_cast ha
  have hb2 : (b.den : ℚ) ≠ 0 := by exact_mod_cast hb
  have hn2 : (b.num : ℚ) ≠ 0 := by exact_mod_cast hn
  simp only [PyF.div, PyF.val]
  push_cast
  field_simp

theorem PyF.blt_iff (a b : PyF) (ha : 0 < a.den) (hb : 0 < b.den) :
    a.blt b = true ↔ a.val < b.val := by
  have ha2 : (0 : ℚ) < (a.den : ℚ) := by exact_mod_cast ha
  have hb2 : (0 : ℚ) < (b.den : ℚ) := by exact_mod_cast hb
  simp only [PyF.blt, PyF.val, decide_eq_true_iff]
  rw [div_lt_div_iff₀ ha2 hb2]
  exact_mod_cast Iff.rfl

theorem PyF.beqv_iff (a b : PyF) (ha : 0 < a.den) (hb : 0 < b.den) :
    a.beqv b = true ↔ a.val = b.val := by
  have ha2 : (a.den : ℚ) ≠ 0 := by positivity
  have hb2 : (b.den : ℚ) ≠ 0 := by positivity
  simp only [PyF.beqv, PyF.val, decide_eq_true_iff]
  rw [div_eq_div_iff ha2 hb2]
  exact_mod_cast Iff.rfl

theorem PyF.floorv_eq (a : PyF) (h : 0 < a.den) : a.floorv = ⌊a.val⌋ :=
  fdiv_eq_floor a.num a.den h

theorem PyF.isNeg_iff (a : PyF) (h : 0 < a.den) : a.isNeg = true ↔ a.val < 0 := by
  rw [PyF.isNeg, PyF.blt_iff a (PyF.ofInt 0) h (by norm_num [PyF.ofInt]), PyF.val_ofInt]
  norm_num

theorem PyF.absv_den (a : PyF) : a.absv.den = a.den := by
  unfold PyF.absv
  split <;> simp [PyF.neg]

theorem PyF.absv_val (a : PyF) (h : 0 < a.den) : a.absv.val = |a.val| := by
  unfold PyF.absv
  by_cases hneg : a.isNeg = true
  · rw [if_pos hneg]
    have : a.val < 0 := (PyF.isNeg_iff a h).mp hneg
    have hv : (a.neg).val = -a.val := by
      simp [PyF.neg, PyF.val, neg_div]
    rw [hv, abs_of_neg this]
  · rw [if_neg hneg]
    have : ¬(a.val < 0) := fun hlt => hneg ((PyF.isNeg_iff a h).mpr hlt)
    rw [abs_of_nonneg (le_of_not_lt this)]

theorem pyRound_eq (q : PyF) (h : 0 < q.den) : pyRound q = pyRoundQ q.val := by
  unfold pyRound pyRoundQ
  have hf : q.floorv = ⌊q.val⌋ := PyF.floorv_eq q h
  have hden1 : (PyF.ofInt q.floorv).den = 1 := rfl
  have hrden : 0 < (q.sub (PyF.ofInt q.floorv)).den := by
    simp only [PyF.sub, PyF.ofInt]
    omega
  have hrval : (q.sub (PyF.ofInt q.floorv)).val = q.val - (⌊q.val⌋ : ℚ) := by
    rw [PyF.val_sub _ _ (by omega) (by rw [hden1]; norm_num), PyF.val_ofInt, hf]
  have hhalfden : (0 : ℤ) < pyHalf.den := by norm_num [pyHalf]
  have hhalfval : pyHalf.val = 1 / 2 := by norm_num [pyHalf, PyF.val]
  by_cases hc1 : q.val - (⌊q.val⌋ : ℚ) < 1 / 2
  · rw [if_pos (by rw [PyF.blt_iff _ _ hrden hhalfden, hrval, hhalfval]; exact hc1),
       if_pos hc1, hf]
  · rw [if_neg (by rw [PyF.blt_iff _ _ hrden hhalfden, hrval, hhalfval]; exact hc1),
       if_neg hc1]
    by_cases hc2 : (1 : ℚ) / 2 < q.val - (⌊q.val⌋ : ℚ)
    · rw [if_pos (by rw [PyF.blt_iff _ _ hhalfden hrden, hrval, hhalfval]; exact hc2),
         if_pos hc2, hf]
    · rw [if_neg (by rw [PyF.blt_iff _ _ hhalfden hrden, hrval, hhalfval]; exact hc2),
         if_neg hc2, hf]

theorem fmtFixed_eq (d : ℕ) (q : PyF) (h : 0 < q.den) : fmtFixed d q = fmtFixedQ d q.val := by
  unfold fmtFixed fmtFixedQ
  have hpden : 0 < (q.absv.mul (PyF.ofInt ((10 : ℤ) ^ d))).den := by
    simp only [PyF.mul, PyF.ofInt, PyF.absv_den]
    omega
  have hsign : (if q.isNeg then "-" else "") = (if q.val < 0 then "-" else "") := by
    by_cases hneg : q.isNeg = true
    · rw [if_pos hneg, if_pos ((PyF.isNeg_iff q h).mp hneg)]
    · rw [if_neg hneg, if_neg (fun hlt => hneg ((PyF.isNeg_iff q h).mpr hlt))]
  have hval : (q.absv.mul (PyF.ofInt ((10 : ℤ) ^ d))).val = |q.val| * (10 : ℚ) ^ d := by
    rw [PyF.val_mul _ _ (by rw [PyF.absv_den]; omega) (by norm_num [PyF.ofInt]),
       PyF.absv_val q h, PyF.val_ofInt]
    push_cast
    ring
  rw [hsign, pyRound_eq _ hpden, hval]

/-! ## The grid program (embedding of grid_v2.py, plus the grid_v1.py
row matchers) -/

deriving instance DecidableEq for Except

/-- A cell coordinate `(tab, row, col)`, exactly the dictionary key used
by the scripts. -/
abbrev Key := ℕ × ℕ × ℕ

/-- Errors surfaced by `apply_ranges` (the scripts raise `ValueError` and
show a message box; the spec names the conditions `RangeParseError` and
`AxisConflictError`). -/
inductive GridError where
  | rangeParse (param : String)
  | axisConflict
  | countsParse
  deriving DecidableEq

/-- `CONFIG["MAX_NOTE_LENGTH"]` of grid_v2.py. -/
def MAX_NOTE_LENGTH : ℕ := 512

/-- The `PARAMETERS` list of grid_v2.py. -/
def PARAMETERS : List String :=
  ["Speed", "Power", "Frequency", "Line Interval", "Passes", "Q-Pulse"]

/-- The integer-formatted parameter classes in `_generate_values`. -/
def intClassParams : List String := ["Speed", "Power", "Passes", "Q-Pulse"]

/-- `_generate_values(param, counts)` of grid_v2.py, with the
`self.ranges[param]` start/end strings passed explicitly.  A float-parse
failure of either bound raises `ValueError(f"Invalid range for {param}")`,
modelled as `GridError.rangeParse param`. -/
def generateValues (startStr endStr param : String) (counts : ℕ) :
    Except GridError (List String) :=
  match parseFloat? startStr, parseFloat? endStr with
  | some a, some b =>
    if a.beqv b then
      if param = "Frequency" then Except.ok (List.replicate counts (fmtFixed 1 a))
      else Except.ok (List.replicate counts (pyStrFloat a))
    else
      let step := (b.sub a).div (PyF.ofInt ((counts : ℤ) - 1))
      let values := (List.range counts).map
        (fun i : ℕ => a.add ((PyF.ofInt (i : ℤ)).mul step))
      if param ∈ intClassParams then Except.ok (values.map (fun v => toString (pyRound v)))
      else if param = "Line Interval" then Except.ok (values.map (fmtFixed 4))
      else if param = "Frequency" then Except.ok (values.map (fmtFixed 1))
      else Except.ok (values.map (fmtFixed 2))
  | _, _ => Except.error (GridError.rangeParse param)

/-- The mutable state of `LaserGridApp` (grid_v2.py) that the core logic
reads and writes: the axis/mode/range/count entry variables, the applied
grid (`current_values_x/y`, `current_x_param`, `current_y_param`), the
accumulated button dictionary keys, and the notes dictionary (an
insertion-ordered association list, like a Python dict). -/
structure AppState where
  x_axis_var : String
  y_axis_var : String
  qpulse_mode : String
  ranges : List (String × String × String)
  x_counts_var : String
  y_counts_var : String
  current_values_x : List String
  current_values_y : List String
  current_x_param : String
  current_y_param : String
  buttons : List Key
  notes : List (Key × String)
  deriving DecidableEq

/-- `self.ranges[param]` (start, end); every parameter of `PARAMETERS` is
present in the dictionary, so the default is never reached on the
script's inputs. -/
def rangeOf (s : AppState) (param : String) : String × String :=
  match s.ranges.find? (fun r => r.1 == param) with
  | some r => r.2
  | none => ("", "")

/-- The button keys `(tab_id, row-1, col-1)` created by `_build_grid` for
one tab of the given extents. -/
def gridKeys (tab rows cols : ℕ) : List Key :=
  (List.range rows).flatMap (fun r => (List.range cols).map (fun c => (tab, r, c)))

/-- `_create_split_grids`: with fewer than 4 x-values fall back to a
single grid (tab 0); otherwise two tabs with the x sequence cut at
`mid = (total + 1) // 2`. -/
def splitTabs (xs : List String) : List (ℕ × List String) :=
  if xs.length < 4 then [(0, xs)]
  else [(1, xs.take ((xs.length + 1) / 2)), (2, xs.drop ((xs.length + 1) / 2))]

/-- The tabs built by `apply_ranges`: split mode versus `_create_single_grid`. -/
def tabsFor (mode : String) (xs : List String) : List (ℕ × List String) :=
  if mode = "Split" then splitTabs xs else [(0, xs)]

/-- All button keys created for a freshly built grid. -/
def newGridKeys (mode : String) (xs ys : List String) : List Key :=
  (tabsFor mode xs).flatMap (fun t => gridKeys t.1 ys.length t.2.length)

/-- `apply_ranges` (grid_v2.py, silent path).  Mirrors the statement
order of the `try` block: the axis-conflict check, the two count parses,
then x-generation-and-assignment, then y-generation-and-assignment, then
axis params, grid building (buttons are only ever added to the dict,
never removed), and `clear_all`.  A raised `ValueError` is caught by the
surrounding handler, leaving whatever was already assigned. -/
def applyRanges (s : AppState) : Option GridError × AppState :=
  let x_param := s.x_axis_var
  let y_param := s.y_axis_var
  if x_param = y_param then (some GridError.axisConflict, s)
  else
    match parseInt? s.x_counts_var, parseInt? s.y_counts_var with
    | some xcRaw, some ycRaw =>
      let x_counts := (max 2 xcRaw).toNat
      let y_counts := (max 2 ycRaw).toNat
      match generateValues (rangeOf s x_param).1 (rangeOf s x_param).2 x_param x_counts with
      | Except.error e => (some e, s)
      | Except.ok xs =>
        let s1 := { s with current_values_x := xs }
        match generateValues (rangeOf s1 y_param).1 (rangeOf s1 y_param).2 y_param y_counts with
        | Except.error e => (some e, s1)
        | Except.ok ys =>
          let s2 := { s1 with current_values_y := ys,
                              current_x_param := x_param, current_y_param := y_param }
          let fresh := (newGridKeys s2.qpulse_mode xs ys).filter
            (fun k => decide (k ∉ s2.buttons))
          (none, { s2 with buttons := s2.buttons ++ fresh, notes := [] })
    | _, _ => (some GridError.countsParse, s)

/-! ### Notes dictionary operations (Python dict on `(tab, r, c)` keys) -/

def notesLookup : List (Key × String) → Key → Option String
  | [], _ => none
  | (k2, t) :: rest, k => if k2 = k then some t else notesLookup rest k

/-- Dict assignment `self.notes[key] = note`: update in place if the key
is present, else append (insertion order, like a Python dict). -/
def notesInsert : List (Key × String) → Key → String → List (Key × String)
  | [], k, t => [(k, t)]
  | (k2, t2) :: rest, k, t =>
    if k2 = k then (k, t) :: rest else (k2, t2) :: notesInsert rest k t

/-- `self.notes.pop(key, None)`. -/
def notesErase : List (Key × String) → Key → List (Key × String)
  | [], _ => []
  | (k2, t2) :: rest, k => if k2 = k then rest else (k2, t2) :: notesErase rest k

/-! ### Export (grid_v2.py `export_to_csv`) -/

/-- Lexicographic order on coordinates, as `sorted(self.notes.items())`
orders them (the note text tie-break is unreachable because dict keys are
unique). -/
def keyLe (a b : Key) : Prop :=
  a.1 < b.1 ∨ (a.1 = b.1 ∧ (a.2.1 < b.2.1 ∨ (a.2.1 = b.2.1 ∧ a.2.2 ≤ b.2.2)))

instance : DecidableRel keyLe := fun a b => by
  unfold keyLe
  exact inferInstance

def entryLe (p q : Key × String) : Prop := keyLe p.1 q.1

instance : DecidableRel entryLe := fun p q => by
  unfold entryLe
  exact inferInstance

/-- `sorted(self.notes.items())`. -/
def sortNotes (l : List (Key × String)) : List (Key × String) :=
  List.insertionSort entryLe l

/-- One data row of the export, restricted to the fields the decoder
reads back (`Note`, `Tab`, `X_Param`, `X_Value`, `Y_Param`, `Y_Value`);
the remaining columns (`Title`, per-parameter settings) are write-only
payload never read by `load_from_csv`. -/
structure Row where
  note : String
  tab : ℕ
  xParam : String
  xValue : String
  yParam : String
  yValue : String
  deriving DecidableEq

/-- One exported row for a note entry: `export_to_csv` reads the cell's
x value as `self.current_values_x[c]` and y value as
`self.current_values_y[r]` — the FULL (unsplit) sequences indexed by the
tab-local coordinates (out-of-range indexing would raise, modelled by the
`getD` default; the claims carry in-range hypotheses). -/
def exportRow (s : AppState) (e : Key × String) : Row :=
  { note := e.2
    tab := e.1.1
    xParam := s.current_x_param
    xValue := s.current_values_x.getD e.1.2.2 ""
    yParam := s.current_y_param
    yValue := s.current_values_y.getD e.1.2.1 "" }

/-- The data rows of `export_to_csv`, in `sorted(self.notes.items())`
order — the row-level view of the data section.  The serialized text of
each row, including the write-only columns, is modelled separately by
`rowLine`/`exportLines`, and the loader's line classification by
`dataLines`/`loadTextRows` below. -/
def exportRows (s : AppState) : List Row :=
  (sortNotes s.notes).map (exportRow s)

/-! ### Import (grid_v2.py `load_from_csv`) -/

/-- `next((i for i, v in enumerate(values) if str(v) == str(x_val)), None)`:
the index of the first EXACT string match. -/
def findIdxFrom (x : String) : List String → Option ℕ
  | [] => none
  | v :: rest => if v = x then some 0 else (findIdxFrom x rest).map (fun i => i + 1)

/-- The per-row body of the `load_from_csv` restore loop of grid_v2.py:
skip the row unless the stored axis-parameter names equal the current
ones; locate `(r, c)` by exact string matching against the freshly
generated sequences; store the stripped note only when both indexes were
found and the key exists in the button dictionary.  Every failure path
returns the state unchanged (silent skip, never fatal). -/
def loadRow (s : AppState) (row : Row) : AppState :=
  if row.xParam ≠ s.current_x_param ∨ row.yParam ≠ s.current_y_param then s
  else
    match findIdxFrom row.xValue s.current_values_x,
          findIdxFrom row.yValue s.current_values_y with
    | some c, some r =>
      if (row.tab, r, c) ∈ s.buttons then
        { s with notes := notesInsert s.notes (row.tab, r, c) (pyStrip row.note) }
      else s
    | _, _ => s

/-! ### The CSV text layer (grid_v2.py `export_to_csv` writer and
`load_from_csv` line handling) -/

/-- `dict.get(k, d)` on a string-keyed dictionary (association list). -/
def getDict (g : List (String × String)) (k d : String) : String :=
  match g.find? (fun p => p.1 == k) with
  | some p => p.2
  | none => d

/-- `k in dict`. -/
def dictHas (g : List (String × String)) (k : String) : Bool :=
  (g.find? (fun p => p.1 == k)).isSome

/-- `cell_settings.get(k, d)`: the globals dictionary with the cell's
axis values overriding the axis parameters (export_to_csv lines
195-201; the y override is assigned after the x override). -/
def cellGet (s : AppState) (g : List (String × String)) (e : Key × String)
    (k d : String) : String :=
  if k = s.current_y_param ∧ dictHas g k = true then s.current_values_y.getD e.1.2.1 ""
  else if k = s.current_x_param ∧ dictHas g k = true then s.current_values_x.getD e.1.2.2 ""
  else getDict g k d

/-- The `fmt` helper of export_to_csv (lines 204-216): parse as float;
integers render without decimals, magnitudes below 1 with 4 decimals,
others with 1 decimal; unparseable values pass through. -/
def fmtSetting (val : String) : String :=
  match parseFloat? val with
  | none => val
  | some f =>
    if f.num % f.den = 0 then toString (f.num / f.den)
    else if f.absv.blt (PyF.ofInt 1) then fmtFixed 4 f
    else fmtFixed 1 f

/-- The dynamic `Title` column (lines 219-227): the note followed by the
formatted effective settings.  Note the literal `(S:` skeleton — every
Title cell contains a colon. -/
def dynamicTitle (s : AppState) (g : List (String × String)) (e : Key × String) : String :=
  pyStrip (e.2 ++ " (S:" ++ fmtSetting (cellGet s g e "Speed" "?")
    ++ " P:" ++ fmtSetting (cellGet s g e "Power" "?")
    ++ " F:" ++ fmtSetting (cellGet s g e "Frequency" "?")
    ++ " QP:" ++ fmtSetting (cellGet s g e "Q-Pulse" "?")
    ++ " LI:" ++ fmtSetting (cellGet s g e "Line Interval" "?")
    ++ " Pass:" ++ fmtSetting (cellGet s g e "Passes" "?") ++ ")")

/-- The write-only columns 7-13 of a data row (`Title` through
`Q-Pulse`), already pipe-joined. -/
def tailCols (s : AppState) (g : List (String × String)) (e : Key × String) : String :=
  dynamicTitle s g e
    ++ "|" ++ cellGet s g e "Speed" "" ++ "|" ++ cellGet s g e "Power" ""
    ++ "|" ++ cellGet s g e "Frequency" "" ++ "|" ++ cellGet s g e "Line Interval" ""
    ++ "|" ++ cellGet s g e "Passes" "" ++ "|" ++ cellGet s g e "Q-Pulse" ""

/-- One serialized data line, as `csv.DictWriter(..., delimiter=chr(124))`
writes it: the thirteen columns pipe-joined, the note first.  Quoting is
not modelled: the writer quotes a field only when it contains the
delimiter, the quote character or a newline; the round-trip hypotheses
keep the six read-back fields free of those, and a quoted write-only
column changes nothing the loader reads.  The globals are passed in like
`globals_dict` (operator entry widgets are single-line; the theorems
carry a newline-freedom hypothesis). -/
def rowLine (s : AppState) (g : List (String × String)) (e : Key × String) : String :=
  e.2 ++ "|" ++ toString e.1.1 ++ "|" ++ s.current_x_param
    ++ "|" ++ s.current_values_x.getD e.1.2.2 ""
    ++ "|" ++ s.current_y_param ++ "|" ++ s.current_values_y.getD e.1.2.1 ""
    ++ "|" ++ tailCols s g e

/-- The csv header row (`fieldnames = rows[0].keys()`). -/
def headerLine : String :=
  "Note|Tab|X_Param|X_Value|Y_Param|Y_Value|Title|Speed|Power|Frequency|Line Interval|Passes|Q-Pulse"

/-- The data section written by `export_to_csv`: the header line then one
line per note in sorted order.  The metadata preamble and the blank
separator are not included: every preamble line opens with the comment
marker and feeds the loader's metadata branch (never the data rows), and
its effect — restored variables plus `apply_ranges` regeneration — is
what the round-trip theorem's hypotheses on the fresh state capture. -/
def exportLines (s : AppState) (g : List (String × String)) : List String :=
  headerLine :: (sortNotes s.notes).map (rowLine s g)

/-- Does the line open with the comment marker? -/
def startsWithHash (l : String) : Bool :=
  match l.data with
  | c :: _ => c == '#'
  | [] => false

/-- The loader's line classification (load_from_csv lines 285-293):
each line is stripped; a line opening with the comment marker and
containing a colon feeds the metadata dictionary, a non-empty line not
opening with the marker is collected as a data line, and anything else
is dropped.  Data lines are therefore exactly the stripped lines that
are non-empty and do not open with the marker. -/
def dataLines (lines : List String) : List String :=
  (lines.map pyStrip).filter (fun l => decide (l ≠ "") && !startsWithHash l)

/-- Split a list of characters at every pipe delimiter. -/
def splitBarL : List Char → List (List Char)
  | [] => [[]]
  | c :: rest =>
    if c = '|' then [] :: splitBarL rest
    else
      match splitBarL rest with
      | [] => [[c]]
      | f :: fs => (c :: f) :: fs

/-- Split a data line on the pipe delimiter (`csv.DictReader` with
`delimiter=chr(124)`; quote handling is not modelled — see `rowLine`). -/
def splitBar (l : String) : List String :=
  (splitBarL l.data).map String.mk

/-- Process one collected data line: `DictReader` maps the
pipe-separated fields to the header columns, of which the loader reads
`Note`, `Tab`, `X_Param`, `X_Value`, `Y_Param` and `Y_Value`, then the
per-row restore body runs (`loadRow`).  An unparseable `Tab` raises
inside the row's try and the row is skipped; a negative `Tab` can match
no button key, so it is skipped here directly (button keys are natural
triples). -/
def loadLine (s : AppState) (l : String) : AppState :=
  let fields := splitBar l
  match parseInt? (fields.getD 1 "0") with
  | none => s
  | some t =>
    if t < 0 then s
    else
      loadRow s { note := fields.getD 0 "", tab := t.toNat,
                  xParam := fields.getD 2 "", xValue := fields.getD 3 "",
                  yParam := fields.getD 4 "", yValue := fields.getD 5 "" }

/-- The data-section processing of `load_from_csv`: classify the lines,
return unchanged when no data line survives (the loader reports and
returns before clearing anything), otherwise consume the first surviving
line as the csv header, clear the notes (`clear_all(silent=True)`) and
process the remaining rows in file order. -/
def loadTextRows (s : AppState) (lines : List String) : AppState :=
  match dataLines lines with
  | [] => s
  | _ :: rows => List.foldl loadLine { s with notes := [] } rows

/-- The double-quote character (csv quote char). -/
def quoteChar : Char := Char.ofNat 34

/-- A text free of the csv metacharacters: the pipe delimiter, the quote
character and line breaks.  Fields satisfying this are written verbatim
by the csv writer and read back verbatim by the reader. -/
def csvPlain (f : String) : Prop :=
  '|' ∉ f.data ∧ quoteChar ∉ f.data ∧ Char.ofNat 10 ∉ f.data ∧ Char.ofNat 13 ∉ f.data

instance instDecCsvPlain (f : String) : Decidable (csvPlain f) :=
  inferInstanceAs (Decidable ('|' ∉ f.data ∧ quoteChar ∉ f.data ∧
    Char.ofNat 10 ∉ f.data ∧ Char.ofNat 13 ∉ f.data))

/-! ### Note editing (grid_v2.py `edit_note`, after the dialog returns) -/

/-- `edit_note`: strip, truncate to `MAX_NOTE_LENGTH` when longer, store
when non-empty, else remove. -/
def editNote (notes : List (Key × String)) (key : Key) (txt : String) :
    List (Key × String) :=
  let t := pyStrip txt
  let t2 := if MAX_NOTE_LENGTH < t.length then pyTake t MAX_NOTE_LENGTH else t
  if t2 ≠ "" then notesInsert notes key t2 else notesErase notes key

/-! ### grid_v1.py row matching and the spec's tolerant matcher -/

/-- `round(x, 1)` scaled by 10: two values agree at 1 decimal place iff
their `round1i` agree. -/
def round1i (a : PyF) : ℤ := pyRound (a.mul (PyF.ofInt 10))

/-- Search loop of grid_v1.py
`next((i for i, f in enumerate(labels) if round(float(f), 1) == saved_freq), None)`;
a label that fails to parse raises inside the generator, which the
enclosing `except` turns into a row skip (`none`). -/
def v1FreqGo (f : PyF) : List String → Option ℕ
  | [] => none
  | l :: rest =>
    match parseFloat? l with
    | none => none
    | some lf =>
      if round1i lf = round1i f then some 0 else (v1FreqGo f rest).map (fun i => i + 1)

/-- grid_v1.py frequency matching: parse the stored value, then find the
first label equal at 1 decimal place. -/
def v1LocateFreq (labels : List String) (freqStr : String) : Option ℕ :=
  match parseFloat? freqStr with
  | none => none
  | some f => v1FreqGo f labels

/-- `list.index` for the grid_v1.py q-pulse lists. -/
def idxOfInt : List ℤ → ℤ → ℕ
  | [], _ => 0
  | v :: rest, x => if v = x then 0 else idxOfInt rest x + 1

/-- grid_v1.py q-pulse matching: `ns = round(float(q_str))`, then
membership with `list.index` in grid 1 first, then grid 2. -/
def v1LocateQ (q1 q2 : List ℤ) (qStr : String) : Option (ℕ × ℕ) :=
  match parseFloat? qStr with
  | none => none
  | some q =>
    if pyRound q ∈ q1 then some (1, idxOfInt q1 (pyRound q))
    else if pyRound q ∈ q2 then some (2, idxOfInt q2 (pyRound q))
    else none

/-- Modelled from the spec (§4.5 Import Decoder): "parse both sides as
floating-point numbers and compare at a fixed rounding precision (1
decimal place) rather than exact string equality".  This is the
refinement-comparison definition the claims measure grid_v2.py's actual
matcher against; it is NOT the code's matcher. -/
def specTolerantFind (xs : List String) (x : String) : Option ℕ :=
  match parseFloat? x with
  | none => none
  | some xq => go xq xs
where go (xq : PyF) : List String → Option ℕ
  | [] => none
  | v :: rest =>
    match parseFloat? v with
    | some vq => if round1i vq = round1i xq then some 0 else (go xq rest).map (fun i => i + 1)
    | none => (go xq rest).map (fun i => i + 1)

/-- The per-class value rendering of `_generate_values`, stated on the
rational value (specification-level twin used by the generator claims). -/
def classFmtQ (param : String) (x : ℚ) : String :=
  if param ∈ intClassParams then toString (pyRoundQ x)
  else if param = "Line Interval" then fmtFixedQ 4 x
  else if param = "Frequency" then fmtFixedQ 1 x
  else fmtFixedQ 2 x

/-! ## Dictionary and search lemmas -/

theorem notesLookup_insert_self (l : List (Key × String)) (k : Key) (t : String) :
    notesLookup (notesInsert l k t) k = some t := by
  induction l with
  | nil => simp [notesInsert, notesLookup]
  | cons p rest ih =>
    obtain ⟨k2, t2⟩ := p
    by_cases hk : k2 = k
    · simp [notesInsert, hk, notesLookup]
    · simp [notesInsert, hk, notesLookup, ih]

theorem notesLookup_insert_ne (l : List (Key × String)) (k k2 : Key) (t : String)
    (h : k2 ≠ k) : notesLookup (notesInsert l k t) k2 = notesLookup l k2 := by
  have h2 : k ≠ k2 := h.symm
  induction l with
  | nil => simp [notesInsert, notesLookup, h2]
  | cons p rest ih =>
    obtain ⟨ka, ta⟩ := p
    by_cases hk : ka = k
    · subst hk
      simp [notesInsert, notesLookup, h2]
    · by_cases hk2 : ka = k2
      · simp [notesInsert, hk, notesLookup, hk2, h]
      · simp [notesInsert, hk, notesLookup, hk2, ih]

theorem notesInsert_of_not_mem (l : List (Key × String)) (k : Key) (t : String)
    (h : k ∉ l.map Prod.fst) : notesInsert l k t = l ++ [(k, t)] := by
  induction l with
  | nil => simp [notesInsert]
  | cons p rest ih =>
    obtain ⟨ka, ta⟩ := p
    simp only [List.map_cons, List.mem_cons, not_or] at h
    have hk : ka ≠ k := fun he => h.1 he.symm
    simp [notesInsert, hk, ih h.2]

theorem notesLookup_eq_none_of_not_mem (l : List (Key × String)) (k : Key)
    (h : k ∉ l.map Prod.fst) : notesLookup l k = none := by
  induction l with
  | nil => rfl
  | cons p rest ih =>
    obtain ⟨ka, ta⟩ := p
    simp only [List.map_cons, List.mem_cons, not_or] at h
    have hk : ka ≠ k := fun he => h.1 he.symm
    simp [notesLookup, hk, ih h.2]

theorem notesLookup_erase_self (l : List (Key × String)) (k : Key)
    (h : (l.map Prod.fst).Nodup) : notesLookup (notesErase l k) k = none := by
  induction l with
  | nil => rfl
  | cons p rest ih =>
    obtain ⟨ka, ta⟩ := p
    simp only [List.map_cons, List.nodup_cons] at h
    by_cases hk : ka = k
    · subst hk
      simp [notesErase, notesLookup_eq_none_of_not_mem rest ka h.1]
    · simp [notesErase, hk, notesLookup, ih h.2]

theorem notesLookup_erase_ne (l : List (Key × String)) (k k2 : Key)
    (h : k2 ≠ k) : notesLookup (notesErase l k) k2 = notesLookup l k2 := by
  have h2 : k ≠ k2 := h.symm
  induction l with
  | nil => rfl
  | cons p rest ih =>
    obtain ⟨ka, ta⟩ := p
    by_cases hk : ka = k
    · subst hk
      simp [notesErase, notesLookup, h2]
    · by_cases hk2 : ka = k2
      · simp [notesErase, hk, notesLookup, hk2, h]
      · simp [notesErase, hk, notesLookup, hk2, ih]

theorem findIdxFrom_self (xs : List String) (c : ℕ) (hc : c < xs.length)
    (hnd : xs.Nodup) : findIdxFrom xs[c] xs = some c := by
  induction xs generalizing c with
  | nil => exact absurd hc (by simp)
  | cons v rest ih =>
    rcases c with _ | c
    · simp [findIdxFrom]
    · have hc2 : c < rest.length := by simpa using hc
      have hget : (v :: rest)[c + 1] = rest[c] := rfl
      have hv : v ≠ rest[c] := by
        intro he
        exact (List.nodup_cons.mp hnd).1 (he ▸ List.getElem_mem hc2)
      simp [findIdxFrom, hget, hv, ih c hc2 (List.nodup_cons.mp hnd).2]

theorem findIdxFrom_eq_some (x : String) (xs : List String) (i : ℕ)
    (h : findIdxFrom x xs = some i) : xs.getD i "" = x := by
  induction xs generalizing i with
  | nil => simp [findIdxFrom] at h
  | cons v rest ih =>
    by_cases hv : v = x
    · simp only [findIdxFrom, if_pos hv] at h
      cases h
      simpa [List.getD] using hv
    · simp only [findIdxFrom, if_neg hv] at h
      rcases hi : findIdxFrom x rest with _ | j
      · rw [hi] at h
        simp at h
      · rw [hi] at h
        have hj : j + 1 = i := by simpa using h
        subst hj
        simpa [List.getD] using ih j hi

theorem mem_gridKeys (tab rows cols : ℕ) (k : Key) :
    k ∈ gridKeys tab rows cols ↔ k.1 = tab ∧ k.2.1 < rows ∧ k.2.2 < cols := by
  obtain ⟨t, r, c⟩ := k
  simp only [gridKeys, List.mem_flatMap, List.mem_map, List.mem_range, Prod.mk.injEq]
  constructor
  · rintro ⟨r2, hr2, c2, hc2, ht, hr, hc⟩
    subst ht hr hc
    exact ⟨rfl, hr2, hc2⟩
  · rintro ⟨ht, hr, hc⟩
    exact ⟨r, hr, c, hc, ht.symm, rfl, rfl⟩

theorem mem_newGridKeys (mode : String) (xs ys : List String) (k : Key)
    (h : k ∈ newGridKeys mode xs ys) : k.2.1 < ys.length ∧ k.2.2 < xs.length := by
  unfold newGridKeys tabsFor at h
  by_cases hm : mode = "Split"
  · rw [if_pos hm] at h
    unfold splitTabs at h
    by_cases hlen : xs.length < 4
    · rw [if_pos hlen] at h
      simp only [List.flatMap_cons, List.flatMap_nil, List.append_nil] at h
      have := (mem_gridKeys 0 ys.length xs.length k).mp h
      exact ⟨this.2.1, this.2.2⟩
    · rw [if_neg hlen] at h
      simp only [List.flatMap_cons, List.flatMap_nil, List.append_nil, List.mem_append] at h
      rcases h with h | h
      · have := (mem_gridKeys 1 ys.length (xs.take ((xs.length + 1) / 2)).length k).mp h
        refine ⟨this.2.1, lt_of_lt_of_le this.2.2 ?_⟩
        simp [List.length_take]
      · have := (mem_gridKeys 2 ys.length (xs.drop ((xs.length + 1) / 2)).length k).mp h
        refine ⟨this.2.1, lt_of_lt_of_le this.2.2 ?_⟩
        simp [List.length_drop]
  · rw [if_neg hm] at h
    simp only [List.flatMap_cons, List.flatMap_nil, List.append_nil] at h
    have := (mem_gridKeys 0 ys.length xs.length k).mp h
    exact ⟨this.2.1, this.2.2⟩

/-! ## The reload fold -/

theorem loadRow_restores (s sF : AppState) (e : Key × String)
    (hx : sF.current_x_param = s.current_x_param)
    (hy : sF.current_y_param = s.current_y_param)
    (hxs : sF.current_values_x = s.current_values_x)
    (hys : sF.current_values_y = s.current_values_y)
    (hndx : s.current_values_x.Nodup) (hndy : s.current_values_y.Nodup)
    (hr : e.1.2.1 < s.current_values_y.length)
    (hc : e.1.2.2 < s.current_values_x.length)
    (hbtn : e.1 ∈ sF.buttons)
    (htrim : pyStrip e.2 = e.2)
    (acc : List (Key × String)) :
    loadRow { sF with notes := acc } (exportRow s e) =
      { sF with notes := notesInsert acc e.1 e.2 } := by
  obtain ⟨⟨tab, r, c⟩, t⟩ := e
  simp only at hr hc hbtn htrim
  have hgx : s.current_values_x[c]?.getD "" = s.current_values_x[c] := by
    simp [List.getElem?_eq_getElem hc]
  have hgy : s.current_values_y[r]?.getD "" = s.current_values_y[r] := by
    simp [List.getElem?_eq_getElem hr]
  have hfx : findIdxFrom (s.current_values_x[c]?.getD "") s.current_values_x = some c := by
    rw [hgx]
    exact findIdxFrom_self s.current_values_x c hc hndx
  have hfy : findIdxFrom (s.current_values_y[r]?.getD "") s.current_values_y = some r := by
    rw [hgy]
    exact findIdxFrom_self s.current_values_y r hr hndy
  simp [loadRow, exportRow, hx, hy, hxs, hys, hfx, hfy, hbtn, htrim]

theorem loadRows_fold (s sF : AppState)
    (hx : sF.current_x_param = s.current_x_param)
    (hy : sF.current_y_param = s.current_y_param)
    (hxs : sF.current_values_x = s.current_values_x)
    (hys : sF.current_values_y = s.current_values_y)
    (hndx : s.current_values_x.Nodup) (hndy : s.current_values_y.Nodup) :
    ∀ (L acc : List (Key × String)),
    (∀ e ∈ L, e.1.2.1 < s.current_values_y.length ∧
       e.1.2.2 < s.current_values_x.length ∧ e.1 ∈ sF.buttons ∧ pyStrip e.2 = e.2) →
    (L.map Prod.fst).Nodup →
    (∀ e ∈ L, e.1 ∉ acc.map Prod.fst) →
    List.foldl loadRow { sF with notes := acc } (L.map (exportRow s)) =
      { sF with notes := acc ++ L } := by
  intro L
  induction L with
  | nil =>
    intro acc _ _ _
    simp
  | cons e L ih =>
    intro acc hok hnd hdisj
    obtain ⟨hr, hc, hbtn, htrim⟩ := hok e (List.mem_cons_self e L)
    rw [List.map_cons, List.foldl_cons,
       loadRow_restores s sF e hx hy hxs hys hndx hndy hr hc hbtn htrim acc,
       notesInsert_of_not_mem acc e.1 e.2 (hdisj e (List.mem_cons_self e L))]
    have hnd2 : e.1 ∉ L.map Prod.fst ∧ (L.map Prod.fst).Nodup := by
      rw [List.map_cons, List.nodup_cons] at hnd
      exact hnd
    have hstep := ih (acc ++ [(e.1, e.2)])
      (fun e2 he2 => hok e2 (List.mem_cons_of_mem e he2))
      hnd2.2
      (by
        intro e2 he2
        simp only [List.map_append, List.mem_append, not_or]
        refine ⟨hdisj e2 (List.mem_cons_of_mem e he2), ?_⟩
        have hne : e2.1 ≠ e.1 := by
          intro heq
          exact hnd2.1 (heq ▸ List.mem_map_of_mem Prod.fst he2)
        simpa using hne)
    rw [hstep]
    simp

/-! ## Claim C1: round trip through the text layer -/

/-- The ranges dictionary used by the concrete round trip example
(the script's defaults). -/
def goldRanges : List (String × String × String) :=
  [("Speed", "4000", "1000"), ("Power", "90", "10"), ("Frequency", "3800.0", "100.0"),
   ("Line Interval", "0.0010", "0.020"), ("Passes", "1", "10"), ("Q-Pulse", "150", "200")]

/-- A freshly constructed model: split mode, Q-Pulse columns (12 samples,
so tab 1 holds columns 0..5), Frequency rows (4 samples). -/
def goldInit : AppState :=
  { x_axis_var := "Q-Pulse", y_axis_var := "Frequency", qpulse_mode := "Split",
    ranges := goldRanges, x_counts_var := "12", y_counts_var := "4",
    current_values_x := [], current_values_y := [], current_x_param := "",
    current_y_param := "", buttons := [], notes := [] }

/-- The applied model (also serves as the freshly regenerated target of
the reload: regenerating from the same GridSpec is the same function
application). -/
def goldApplied : AppState := (applyRanges goldInit).2

/-- The exported model: the applied grid with one note `"gold"` at
`(tab = 1, row = 2, col = 5)`. -/
def goldAnnotated : AppState := { goldApplied with notes := [((1, 2, 5), "gold")] }

/-- The default global parameter values of grid_v2.py, as `globals_dict`
collects them at export time. -/
def goldGlobals : List (String × String) :=
  [("Title", "Laser Test"), ("Speed", "3000"), ("Power", "20"), ("Frequency", "1000"),
   ("Line Interval", "0.0250"), ("Passes", "10"), ("Q-Pulse", "200")]

theorem dropWhile_append_of_ne_nil (p : Char → Bool) (u v : List Char)
    (h : u.dropWhile p ≠ []) : (u ++ v).dropWhile p = u.dropWhile p ++ v := by
  induction u with
  | nil => exact absurd rfl h
  | cons c u ih =>
    by_cases hc : p c = true
    · rw [List.dropWhile_cons, if_pos hc] at h
      rw [List.cons_append, List.dropWhile_cons, if_pos hc,
         List.dropWhile_cons, if_pos hc, ih h]
    · rw [List.cons_append, List.dropWhile_cons, if_neg hc,
         List.dropWhile_cons, if_neg hc, List.cons_append]

theorem dropWhile_append_of_eq_nil (p : Char → Bool) (u v : List Char)
    (h : u.dropWhile p = []) : (u ++ v).dropWhile p = v.dropWhile p := by
  induction u with
  | nil => rfl
  | cons c u ih =>
    by_cases hc : p c = true
    · rw [List.dropWhile_cons, if_pos hc] at h
      rw [List.cons_append, List.dropWhile_cons, if_pos hc, ih h]
    · rw [List.dropWhile_cons, if_neg hc] at h
      cases h

theorem dropWhile_ne_nil_of_mem (p : Char → Bool) (u : List Char) (x : Char)
    (hx : x ∈ u) (hnp : p x = false) : u.dropWhile p ≠ [] := by
  induction u with
  | nil => cases hx
  | cons c u ih =>
    by_cases hc : p c = true
    · rw [List.dropWhile_cons, if_pos hc]
      rcases List.mem_cons.mp hx with rfl | hx2
      · rw [hc] at hnp
        cases hnp
      · exact ih hx2
    · rw [List.dropWhile_cons, if_neg hc]
      simp

theorem mk_data (s : String) : String.mk s.data = s := rfl

theorem length_dropWhile_le (p : Char → Bool) (l : List Char) :
    (l.dropWhile p).length ≤ l.length := by
  induction l with
  | nil => exact le_refl _
  | cons c l ih =>
    by_cases hc : p c = true
    · rw [List.dropWhile_cons, if_pos hc]
      exact Nat.le_succ_of_le ih
    · rw [List.dropWhile_cons, if_neg hc]

theorem data_ne_nil (s : String) (h : s ≠ "") : s.data ≠ [] := by
  obtain ⟨l⟩ := s
  intro hl
  exact h (by simp_all)

/-- A whitespace-stripped non-empty string opens with a non-space
character. -/
theorem pyStrip_head_not_space (s : String) (h : pyStrip s = s) (c : Char)
    (cs : List Char) (hd : s.data = c :: cs) : isSpaceChar c = false := by
  by_cases hsp : isSpaceChar c = true
  · exfalso
    have hlen : (pyStrip s).data.length < s.data.length := by
      show ((((s.data.dropWhile isSpaceChar).reverse.dropWhile
          isSpaceChar).reverse : List Char)).length < s.data.length
      rw [hd, List.dropWhile_cons, if_pos hsp, List.length_reverse]
      calc ((cs.dropWhile isSpaceChar).reverse.dropWhile isSpaceChar).length
          ≤ (cs.dropWhile isSpaceChar).reverse.length := length_dropWhile_le _ _
        _ = (cs.dropWhile isSpaceChar).length := List.length_reverse _
        _ ≤ cs.length := length_dropWhile_le _ _
        _ < (c :: cs).length := by simp
    rw [h] at hlen
    exact absurd hlen (lt_irrefl _)
  · exact (Bool.not_eq_true _).mp hsp

/-- Stripping a serialized line whose first character is non-space only
trims within the final (write-only) column: the prefix up to the last
pipe is preserved. -/
theorem pyStrip_line (A extra : List Char) (c : Char) (cs : List Char)
    (hA : A = c :: cs) (hc : isSpaceChar c = false) :
    pyStrip (String.mk (A ++ '|' :: extra)) =
      String.mk (A ++ '|' :: (extra.reverse.dropWhile isSpaceChar).reverse) := by
  subst hA
  show String.mk ((((c :: cs ++ '|' :: extra).dropWhile
      isSpaceChar).reverse.dropWhile isSpaceChar).reverse) = _
  rw [List.cons_append, List.dropWhile_cons, if_neg (by simp [hc])]
  rw [show c :: (cs ++ '|' :: extra) = (c :: cs ++ ['|']) ++ extra from by simp]
  rw [List.reverse_append]
  have hbarp : isSpaceChar '|' = false := by decide
  have hrev1 : ((c :: cs ++ ['|']).reverse).dropWhile isSpaceChar ≠ [] :=
    dropWhile_ne_nil_of_mem _ _ '|' (by simp) hbarp
  by_cases hext : (extra.reverse).dropWhile isSpaceChar = []
  · rw [dropWhile_append_of_eq_nil _ _ _ hext]
    rw [show (c :: cs ++ ['|']).reverse = '|' :: (c :: cs).reverse from by simp]
    rw [List.dropWhile_cons, if_neg (by decide), hext]
    simp
  · rw [dropWhile_append_of_ne_nil _ _ _ hext, List.reverse_append,
       List.reverse_reverse]
    simp

theorem splitBarL_sep (a : List Char) (rest : List Char) (h : '|' ∉ a) :
    splitBarL (a ++ '|' :: rest) = a :: splitBarL rest := by
  induction a with
  | nil =>
    show splitBarL ('|' :: rest) = [] :: splitBarL rest
    rw [splitBarL, if_pos rfl]
  | cons c a ih =>
    have hc : c ≠ '|' := fun hq => h (hq ▸ List.mem_cons_self c a)
    have ha : '|' ∉ a := fun hq => h (List.mem_cons_of_mem c hq)
    rw [List.cons_append, splitBarL, if_neg hc, ih ha]

/-- Every button key's tab is 0, 1 or 2. -/
theorem mem_newGridKeys_tab (mode : String) (xs ys : List String) (k : Key)
    (h : k ∈ newGridKeys mode xs ys) : k.1 = 0 ∨ k.1 = 1 ∨ k.1 = 2 := by
  unfold newGridKeys tabsFor at h
  by_cases hm : mode = "Split"
  · rw [if_pos hm] at h
    unfold splitTabs at h
    by_cases hlen : xs.length < 4
    · rw [if_pos hlen] at h
      simp only [List.flatMap_cons, List.flatMap_nil, List.append_nil] at h
      exact Or.inl ((mem_gridKeys _ _ _ k).mp h).1
    · rw [if_neg hlen] at h
      simp only [List.flatMap_cons, List.flatMap_nil, List.append_nil,
        List.mem_append] at h
      rcases h with h | h
      · exact Or.inr (Or.inl ((mem_gridKeys _ _ _ k).mp h).1)
      · exact Or.inr (Or.inr ((mem_gridKeys _ _ _ k).mp h).1)
  · rw [if_neg hm] at h
    simp only [List.flatMap_cons, List.flatMap_nil, List.append_nil] at h
    exact Or.inl ((mem_gridKeys _ _ _ k).mp h).1

theorem rowLine_data (s : AppState) (g : List (String × String)) (e : Key × String) :
    (rowLine s g e).data =
      e.2.data ++ '|' :: ((toString e.1.1).data ++ '|' :: (s.current_x_param.data ++ '|' ::
        ((s.current_values_x.getD e.1.2.2 "").data ++ '|' :: (s.current_y_param.data ++ '|' ::
        ((s.current_values_y.getD e.1.2.1 "").data ++ '|' :: (tailCols s g e).data))))) := by
  show (e.2 ++ "|" ++ toString e.1.1 ++ "|" ++ s.current_x_param
      ++ "|" ++ s.current_values_x.getD e.1.2.2 ""
      ++ "|" ++ s.current_y_param ++ "|" ++ s.current_values_y.getD e.1.2.1 ""
      ++ "|" ++ tailCols s g e).data = _
  simp [String.data_append]

/-- The stripped serialized line: the six read-back fields survive
intact; only the tail of the write-only columns may have been trimmed. -/
theorem pyStrip_rowLine_data (s : AppState) (g : List (String × String))
    (e : Key × String) (hstrip : pyStrip e.2 = e.2) (hne : e.2 ≠ "") :
    ∃ tail2, (pyStrip (rowLine s g e)).data =
      e.2.data ++ '|' :: ((toString e.1.1).data ++ '|' :: (s.current_x_param.data ++ '|' ::
        ((s.current_values_x.getD e.1.2.2 "").data ++ '|' :: (s.current_y_param.data ++ '|' ::
        ((s.current_values_y.getD e.1.2.1 "").data ++ '|' :: tail2))))) := by
  obtain ⟨c, cs, hd⟩ : ∃ c cs, e.2.data = c :: cs := by
    rcases hl : e.2.data with _ | ⟨c, cs⟩
    · exact absurd hl (data_ne_nil e.2 hne)
    · exact ⟨c, cs, rfl⟩
  have hc : isSpaceChar c = false := pyStrip_head_not_space e.2 hstrip c cs hd
  refine ⟨((tailCols s g e).data.reverse.dropWhile isSpaceChar).reverse, ?_⟩
  have hshape : rowLine s g e = String.mk
      ((e.2.data ++ '|' :: ((toString e.1.1).data ++ '|' :: (s.current_x_param.data ++ '|' ::
        ((s.current_values_x.getD e.1.2.2 "").data ++ '|' :: (s.current_y_param.data ++ '|' ::
        (s.current_values_y.getD e.1.2.1 "").data)))))
       ++ '|' :: (tailCols s g e).data) := by
    conv_lhs => rw [← mk_data (rowLine s g e)]
    rw [rowLine_data s g e]
    simp
  rw [hshape, pyStrip_line _ _ c (cs ++ '|' :: ((toString e.1.1).data ++ '|' ::
      (s.current_x_param.data ++ '|' :: ((s.current_values_x.getD e.1.2.2 "").data ++ '|' ::
      (s.current_y_param.data ++ '|' :: (s.current_values_y.getD e.1.2.1 "").data)))))
    (by rw [hd]; simp) hc]
  simp

theorem loadLine_rowLine (s sF2 : AppState) (g : List (String × String))
    (e : Key × String)
    (hstrip : pyStrip e.2 = e.2) (hne : e.2 ≠ "")
    (hnotep : '|' ∉ e.2.data)
    (htab : e.1.1 = 0 ∨ e.1.1 = 1 ∨ e.1.1 = 2)
    (hxp : '|' ∉ s.current_x_param.data)
    (hyp2 : '|' ∉ s.current_y_param.data)
    (hxv : '|' ∉ (s.current_values_x.getD e.1.2.2 "").data)
    (hyv : '|' ∉ (s.current_values_y.getD e.1.2.1 "").data) :
    loadLine sF2 (pyStrip (rowLine s g e)) = loadRow sF2 (exportRow s e) := by
  obtain ⟨tail2, hdata⟩ := pyStrip_rowLine_data s g e hstrip hne
  have htabp : '|' ∉ (toString e.1.1).data := by
    rcases htab with h0 | h1 | h2
    · rw [h0]; decide
    · rw [h1]; decide
    · rw [h2]; decide
  have hsplit : splitBar (pyStrip (rowLine s g e)) =
      e.2 :: toString e.1.1 :: s.current_x_param :: s.current_values_x.getD e.1.2.2 "" ::
        s.current_y_param :: s.current_values_y.getD e.1.2.1 "" ::
        (splitBarL tail2).map String.mk := by
    unfold splitBar
    rw [hdata, splitBarL_sep _ _ hnotep, splitBarL_sep _ _ htabp,
       splitBarL_sep _ _ hxp, splitBarL_sep _ _ hxv, splitBarL_sep _ _ hyp2,
       splitBarL_sep _ _ hyv]
    simp [mk_data]
  have hparse : parseInt? (toString e.1.1) = some (e.1.1 : ℤ) := by
    rcases htab with h0 | h1 | h2
    · rw [h0]; decide
    · rw [h1]; decide
    · rw [h2]; decide
  unfold loadLine
  simp only [hsplit]
  show (match parseInt? (toString e.1.1) with
    | none => sF2
    | some t =>
      if t < 0 then sF2
      else loadRow sF2 (Row.mk e.2 t.toNat s.current_x_param
        (s.current_values_x.getD e.1.2.2 "") s.current_y_param
        (s.current_values_y.getD e.1.2.1 ""))) = loadRow sF2 (exportRow s e)
  simp only [hparse]
  rw [if_neg (by omega)]
  rw [show ((e.1.1 : ℤ)).toNat = e.1.1 from by omega]
  rfl


theorem getD_pipe_free (l : List String) (i : ℕ) (h : ∀ v ∈ l, '|' ∉ v.data) :
    '|' ∉ (l.getD i "").data := by
  by_cases hi : i < l.length
  · rw [List.getD_eq_getElem l "" hi]
    exact h _ (List.getElem_mem hi)
  · rw [List.getD_eq_default l "" (by omega)]
    decide

/-- A serialized line of a classifier-surviving note survives the
classifier itself: it is non-empty after stripping and does not open
with the comment marker. -/
theorem keep_rowLine (s : AppState) (g : List (String × String)) (e : Key × String)
    (h1 : pyStrip e.2 = e.2) (h2 : e.2 ≠ "") (h3 : startsWithHash e.2 = false) :
    (decide (pyStrip (rowLine s g e) ≠ "") && !startsWithHash (pyStrip (rowLine s g e))) = true := by
  obtain ⟨tail2, hdata⟩ := pyStrip_rowLine_data s g e h1 h2
  obtain ⟨c, cs, hd⟩ : ∃ c cs, e.2.data = c :: cs := by
    rcases hl : e.2.data with _ | ⟨c, cs⟩
    · exact absurd hl (data_ne_nil e.2 h2)
    · exact ⟨c, cs, rfl⟩
  have hch : (c == '#') = false := by
    unfold startsWithHash at h3
    rw [hd] at h3
    exact h3
  have hne2 : pyStrip (rowLine s g e) ≠ "" := by
    intro hq
    have hq2 : (pyStrip (rowLine s g e)).data = [] := by rw [hq]
    rw [hdata, hd] at hq2
    cases hq2
  have hhash2 : startsWithHash (pyStrip (rowLine s g e)) = false := by
    unfold startsWithHash
    rw [hdata, hd]
    simp only [List.cons_append]
    exact hch
  simp [hne2, hhash2]

theorem foldl_loadLine_transport (s : AppState) (g : List (String × String))
    (hxp : '|' ∉ s.current_x_param.data) (hyp2 : '|' ∉ s.current_y_param.data)
    (hxv : ∀ v ∈ s.current_values_x, '|' ∉ v.data)
    (hyv : ∀ v ∈ s.current_values_y, '|' ∉ v.data) :
    ∀ (L : List (Key × String)) (st : AppState),
    (∀ e ∈ L, pyStrip e.2 = e.2 ∧ e.2 ≠ "" ∧ '|' ∉ e.2.data ∧
      (e.1.1 = 0 ∨ e.1.1 = 1 ∨ e.1.1 = 2)) →
    List.foldl loadLine st (L.map (fun e => pyStrip (rowLine s g e))) =
      List.foldl loadRow st (L.map (exportRow s))
  | [], _, _ => rfl
  | e :: L, st, h => by
    rw [List.map_cons, List.map_cons, List.foldl_cons, List.foldl_cons]
    obtain ⟨h1, h2, h3, h4⟩ := h e (List.mem_cons_self e L)
    rw [loadLine_rowLine s st g e h1 h2 h3 h4 hxp hyp2
      (getD_pipe_free _ _ hxv) (getD_pipe_free _ _ hyv)]
    exact foldl_loadLine_transport s g hxp hyp2 hxv hyv L _
      (fun e2 he2 => h e2 (List.mem_cons_of_mem e he2))

/-- The classifier keeps exactly the header line and the serialized note
lines (stripped), in order, when every note is non-empty, stripped and
does not open with the comment marker. -/
theorem dataLines_export (s : AppState) (g : List (String × String))
    (hnotes : ∀ e ∈ sortNotes s.notes,
      pyStrip e.2 = e.2 ∧ e.2 ≠ "" ∧ startsWithHash e.2 = false) :
    dataLines (exportLines s g) =
      headerLine :: (sortNotes s.notes).map (fun e => pyStrip (rowLine s g e)) := by
  have key : ∀ (N : List (Key × String)),
      (∀ e ∈ N, pyStrip e.2 = e.2 ∧ e.2 ≠ "" ∧ startsWithHash e.2 = false) →
      ((N.map (rowLine s g)).map pyStrip).filter
          (fun l => decide (l ≠ "") && !startsWithHash l)
        = N.map (fun e => pyStrip (rowLine s g e)) := by
    intro N
    induction N with
    | nil => intro _; rfl
    | cons e N ih =>
      intro hN
      obtain ⟨h1, h2, h3⟩ := hN e (List.mem_cons_self e N)
      rw [List.map_cons, List.map_cons, List.map_cons, List.filter_cons,
         if_pos (keep_rowLine s g e h1 h2 h3),
         ih (fun e2 he2 => hN e2 (List.mem_cons_of_mem e he2))]
  unfold dataLines exportLines
  rw [List.map_cons,
     show pyStrip headerLine = headerLine from rfl,
     List.filter_cons, if_pos (by decide),
     key (sortNotes s.notes) hnotes]

/-- The state of the counterexample: the gold grid annotated with a
single note that opens with the comment marker. -/
def hashState : AppState := { goldApplied with notes := [((1, 2, 5), "#1 gold")] }

/-- Claim C1, counterexample.  The claim asserts that reloading an
exported file restores every annotation (the only skips it allows are
1-decimal tolerance boundary cases).  But the loader's line classifier
treats any line opening with `#` as metadata (or drops it), and the
note is the first, unquoted csv column: the stored note `"#1 gold"` —
stripped, non-empty, and present before the round trip — produces a
data line opening with `#`, so the reload returns the grid with an
empty notes map and the annotation is silently lost. -/
theorem roundTrip_hash_note_lost_cex :
    pyStrip "#1 gold" = "#1 gold" ∧ "#1 gold" ≠ "" ∧
    (notesLookup hashState.notes (1, 2, 5)).isSome = true ∧
    loadTextRows goldApplied (exportLines hashState goldGlobals) =
      { goldApplied with notes := [] } ∧
    notesLookup (loadTextRows goldApplied
      (exportLines hashState goldGlobals)).notes (1, 2, 5) = none := by
  refine ⟨rfl, by decide, by decide, by decide, by decide⟩

/-- Claim C1 (amended).  Round trip through the serialized text:
exporting a grid and reloading the lines into a freshly regenerated
model restores the full annotation map (in export order) — provided
every note survives the loader's line classifier (non-empty, stripped,
not opening with `#`) and the six read-back columns are free of csv
metacharacters; the regenerated axes must match the exported ones,
with duplicate-free value sequences, in-grid note coordinates, note
keys among the fresh buttons, and tabs in 0..2 (as grid creation makes
them).  No hypothesis is placed on the write-only columns or the
globals dictionary `g`: stripping and splitting cannot cross the last
read-back pipe. -/
theorem roundTrip_restores_plain_notes (s sF : AppState) (g : List (String × String))
    (hx : sF.current_x_param = s.current_x_param)
    (hy : sF.current_y_param = s.current_y_param)
    (hxs : sF.current_values_x = s.current_values_x)
    (hys : sF.current_values_y = s.current_values_y)
    (hndx : s.current_values_x.Nodup) (hndy : s.current_values_y.Nodup)
    (hkeys : (s.notes.map Prod.fst).Nodup)
    (hvalid : ∀ e ∈ s.notes, e.1.2.1 < s.current_values_y.length ∧
       e.1.2.2 < s.current_values_x.length)
    (hbtn : ∀ e ∈ s.notes, e.1 ∈ sF.buttons)
    (htab : ∀ e ∈ s.notes, e.1.1 = 0 ∨ e.1.1 = 1 ∨ e.1.1 = 2)
    (hplain : ∀ e ∈ s.notes, pyStrip e.2 = e.2 ∧ e.2 ≠ "" ∧
       startsWithHash e.2 = false ∧ csvPlain e.2)
    (hxp : csvPlain s.current_x_param) (hyp2 : csvPlain s.current_y_param)
    (hxv : ∀ v ∈ s.current_values_x, csvPlain v)
    (hyv : ∀ v ∈ s.current_values_y, csvPlain v) :
    (loadTextRows sF (exportLines s g)).notes = sortNotes s.notes := by
  have hperm : (sortNotes s.notes).Perm s.notes := List.perm_insertionSort entryLe s.notes
  have hmem : ∀ e ∈ sortNotes s.notes, e ∈ s.notes := fun e he => hperm.subset he
  have hdl := dataLines_export s g (fun e he =>
    ⟨(hplain e (hmem e he)).1, (hplain e (hmem e he)).2.1, (hplain e (hmem e he)).2.2.1⟩)
  unfold loadTextRows
  simp only [hdl]
  rw [foldl_loadLine_transport s g hxp.1 hyp2.1
    (fun v hv => (hxv v hv).1) (fun v hv => (hyv v hv).1)
    (sortNotes s.notes) _
    (fun e he => ⟨(hplain e (hmem e he)).1, (hplain e (hmem e he)).2.1,
      (hplain e (hmem e he)).2.2.2.1, htab e (hmem e he)⟩)]
  rw [loadRows_fold s sF hx hy hxs hys hndx hndy (sortNotes s.notes) []
    (fun e he => ⟨(hvalid e (hmem e he)).1, (hvalid e (hmem e he)).2,
      hbtn e (hmem e he), (hplain e (hmem e he)).1⟩)
    ((hperm.map Prod.fst).nodup_iff.mpr hkeys)
    (fun e _ => by simp)]
  simp

/-- Witness for the amended C1 theorem: the gold-at-(1,2,5) grid round
trips through the serialized text and the note map is restored. -/
theorem roundTrip_restores_plain_notes_witness :
    (loadTextRows goldApplied (exportLines goldAnnotated goldGlobals)).notes
      = [((1, 2, 5), "gold")] := by
  have h := roundTrip_restores_plain_notes goldAnnotated goldApplied goldGlobals
    rfl rfl rfl rfl
    (by decide) (by decide) (by decide) (by decide) (by decide) (by decide)
    (by decide) (by decide) (by decide) (by decide) (by decide)
  rw [h]
  rfl


/-! ## Claim C4: axis conflict -/

/-- Claim C4.  When the selected x-axis parameter equals the selected
y-axis parameter, `apply_ranges` raises before generating anything:
the error is signalled and the whole prior state — generated value
sequences, current axis parameters and the notes dictionary — is
returned unchanged. -/
theorem applyRanges_axis_conflict (s : AppState) (h : s.x_axis_var = s.y_axis_var) :
    applyRanges s = (some GridError.axisConflict, s) := by
  unfold applyRanges
  rw [if_pos h]

/-- A state requesting the same parameter on both axes. -/
def conflictState : AppState := { goldInit with y_axis_var := "Q-Pulse" }

/-- Witness for C4 at a concrete state. -/
theorem applyRanges_axis_conflict_witness :
    applyRanges conflictState = (some GridError.axisConflict, conflictState) :=
  applyRanges_axis_conflict conflictState (by decide)

/-! ## Claim C3: range parse failures (corrected) -/

/-- The goldInit ranges with an unparseable Frequency start. -/
def mutRanges : List (String × String × String) :=
  [("Speed", "4000", "1000"), ("Power", "90", "10"), ("Frequency", "abc", "100.0"),
   ("Line Interval", "0.0010", "0.020"), ("Passes", "1", "10"), ("Q-Pulse", "150", "200")]

/-- A previously applied state whose y-axis (Frequency) range is now
unparseable while the x-axis (Q-Pulse) range is fine. -/
def mutState : AppState :=
  { x_axis_var := "Q-Pulse", y_axis_var := "Frequency", qpulse_mode := "Single",
    ranges := mutRanges, x_counts_var := "2", y_counts_var := "2",
    current_values_x := ["OLDX1", "OLDX2"], current_values_y := ["OLDY1", "OLDY2"],
    current_x_param := "Q-Pulse", current_y_param := "Frequency",
    buttons := [(0, 0, 0)], notes := [] }

/-- Counterexample to C3 as stated: at `mutState` the y range is
unparseable, a range-parse error is signalled, and yet the previously
applied x value sequence HAS been replaced (partial state mutation),
because `apply_ranges` assigns `current_values_x` before generating the
y values. -/
theorem applyRanges_partial_mutation_cex :
    (applyRanges mutState).1 = some (GridError.rangeParse "Frequency") ∧
    (applyRanges mutState).2.current_values_x ≠ mutState.current_values_x := by
  decide

/-- Claim C3 amended.  If the x-axis range is unparseable the error is
signalled with the state fully unchanged; if the x range generates but
the y-axis range is unparseable, the error is signalled after
`current_values_x` has already been replaced — the y sequence, the
current axis parameters, the buttons and the notes are unchanged, but
the x sequence is not. -/
theorem applyRanges_error_mutation (s : AppState) (xc yc : ℤ)
    (hxy : s.x_axis_var ≠ s.y_axis_var)
    (hxc : parseInt? s.x_counts_var = some xc)
    (hyc : parseInt? s.y_counts_var = some yc) :
    (∀ e, generateValues (rangeOf s s.x_axis_var).1 (rangeOf s s.x_axis_var).2
        s.x_axis_var (max 2 xc).toNat = Except.error e →
      applyRanges s = (some e, s)) ∧
    (∀ xs e, generateValues (rangeOf s s.x_axis_var).1 (rangeOf s s.x_axis_var).2
        s.x_axis_var (max 2 xc).toNat = Except.ok xs →
      generateValues (rangeOf s s.y_axis_var).1 (rangeOf s s.y_axis_var).2
        s.y_axis_var (max 2 yc).toNat = Except.error e →
      applyRanges s = (some e, { s with current_values_x := xs })) := by
  constructor
  · intro e he
    simp [applyRanges, if_neg hxy, hxc, hyc, he]
  · intro xs e hok he
    have hro : rangeOf { s with current_values_x := xs } = rangeOf s := rfl
    simp [applyRanges, if_neg hxy, hxc, hyc, hok, hro, he]

/-- Witness for the amended C3 at the concrete state: the error is
signalled and exactly the x sequence has been replaced by the freshly
generated `["150", "200"]`. -/
theorem applyRanges_error_mutation_witness :
    applyRanges mutState =
      (some (GridError.rangeParse "Frequency"),
       { mutState with current_values_x := ["150", "200"] }) :=
  (applyRanges_error_mutation mutState 2 2 (by decide) (by decide) (by decide)).2
    ["150", "200"] (GridError.rangeParse "Frequency") (by decide) (by decide)

/-! ## Claim C6: the split halves -/

/-- Claim C6.  With split requested and at least 4 x values,
`_create_split_grids` cuts the x sequence into two contiguous halves at
`mid = (n + 1) / 2` (that is `ceil(n / 2)`), each preserving the original
order, whose sizes are `(n + 1) / 2` and `n - (n + 1) / 2`, and whose
concatenation is the original sequence. -/
theorem splitTabs_halves (xs : List String) (h : 4 ≤ xs.length) :
    splitTabs xs = [(1, xs.take ((xs.length + 1) / 2)), (2, xs.drop ((xs.length + 1) / 2))] ∧
    (xs.take ((xs.length + 1) / 2)).length = (xs.length + 1) / 2 ∧
    (xs.drop ((xs.length + 1) / 2)).length = xs.length - (xs.length + 1) / 2 ∧
    xs.take ((xs.length + 1) / 2) ++ xs.drop ((xs.length + 1) / 2) = xs := by
  refine ⟨?_, ?_, ?_, ?_⟩
  · unfold splitTabs
    rw [if_neg (by omega)]
  · rw [List.length_take]
    omega
  · rw [List.length_drop]
  · exact List.take_append_drop _ xs

/-- A 20-element x sequence (the claim's example size). -/
def xs20 : List String := (List.range 20).map (fun i => toString i)

/-- Witness for C6: with 20 x values the two tabs have sizes 10 and 10
and concatenate back to the original sequence. -/
theorem splitTabs_halves_witness :
    splitTabs xs20 = [(1, xs20.take 10), (2, xs20.drop 10)] ∧
    (xs20.take 10).length = 10 ∧ (xs20.drop 10).length = 10 ∧
    xs20.take 10 ++ xs20.drop 10 = xs20 := by
  have h := splitTabs_halves xs20 (by decide)
  exact ⟨h.1, by decide, by decide, h.2.2.2⟩

/-! ## Claim C8: edit_note -/

/-- `(pyTake s n).length = min n s.length`. -/
theorem pyTake_length (s : String) (n : ℕ) : (pyTake s n).length = min n s.length := by
  show (s.data.take n).length = min n s.length
  rw [List.length_take]
  rfl

/-- Any note retrievable after an `edit_note` call on a duplicate-free
store is at most `MAX_NOTE_LENGTH` long (shared by claims C8 and C10). -/
theorem editNote_stored_le (notes : List (Key × String)) (k : Key) (txt : String)
    (hnd : (notes.map Prod.fst).Nodup) :
    ∀ t2, notesLookup (editNote notes k txt) k = some t2 →
      t2.length ≤ MAX_NOTE_LENGTH := by
  intro t2 ht2
  unfold editNote at ht2
  by_cases h1 : (if MAX_NOTE_LENGTH < (pyStrip txt).length
      then pyTake (pyStrip txt) MAX_NOTE_LENGTH else pyStrip txt) = ""
  · rw [if_neg (by simpa using h1)] at ht2
    rw [notesLookup_erase_self notes k hnd] at ht2
    cases ht2
  · rw [if_pos h1, notesLookup_insert_self] at ht2
    have ht2e : (if MAX_NOTE_LENGTH < (pyStrip txt).length
        then pyTake (pyStrip txt) MAX_NOTE_LENGTH else pyStrip txt) = t2 :=
      Option.some.inj ht2
    rw [← ht2e]
    by_cases h2 : MAX_NOTE_LENGTH < (pyStrip txt).length
    · rw [if_pos h2, pyTake_length]
      omega
    · rw [if_neg h2]
      omega

/-- Claim C8.  `edit_note` strips the entered text and truncates it to
`MAX_NOTE_LENGTH`; if the result is empty the call clears the cell (the
entry, if any, is removed and nothing is stored), otherwise the
stripped/truncated text is stored, overwriting any existing note, while
every other cell's note is untouched. -/
theorem editNote_trim_truncate_clear (notes : List (Key × String)) (key : Key)
    (txt : String) (hnd : (notes.map Prod.fst).Nodup) :
    ((if MAX_NOTE_LENGTH < (pyStrip txt).length
        then pyTake (pyStrip txt) MAX_NOTE_LENGTH else pyStrip txt) = "" →
      editNote notes key txt = notesErase notes key ∧
      notesLookup (editNote notes key txt) key = none) ∧
    ((if MAX_NOTE_LENGTH < (pyStrip txt).length
        then pyTake (pyStrip txt) MAX_NOTE_LENGTH else pyStrip txt) ≠ "" →
      notesLookup (editNote notes key txt) key =
        some (if MAX_NOTE_LENGTH < (pyStrip txt).length
                then pyTake (pyStrip txt) MAX_NOTE_LENGTH else pyStrip txt)) ∧
    (∀ t2, notesLookup (editNote notes key txt) key = some t2 →
      t2.length ≤ MAX_NOTE_LENGTH) ∧
    (∀ k2, k2 ≠ key → notesLookup (editNote notes key txt) k2 = notesLookup notes k2) := by
  refine ⟨?_, ?_, editNote_stored_le notes key txt hnd, ?_⟩
  · intro h0
    have he : editNote notes key txt = notesErase notes key := by
      unfold editNote
      rw [if_neg (by simpa using h0)]
    exact ⟨he, by rw [he, notesLookup_erase_self notes key hnd]⟩
  · intro h1
    unfold editNote
    rw [if_pos h1, notesLookup_insert_self]
  · intro k2 hk2
    unfold editNote
    by_cases h1 : (if MAX_NOTE_LENGTH < (pyStrip txt).length
        then pyTake (pyStrip txt) MAX_NOTE_LENGTH else pyStrip txt) = ""
    · rw [if_neg (by simpa using h1)]
      exact notesLookup_erase_ne notes key k2 hk2
    · rw [if_pos h1]
      exact notesLookup_insert_ne notes key k2 _ hk2

/-- Witness for C8 at concrete inputs: editing `"  gold  "` at `(0,0,0)`
over a store holding an old note stores the stripped `"gold"`, keeps the
other cell untouched, and the stored text is within the bound. -/
theorem editNote_trim_truncate_clear_witness :
    notesLookup (editNote [((0, 0, 0), "old"), ((0, 0, 1), "keep")] (0, 0, 0) "  gold  ")
        (0, 0, 0) = some "gold" ∧
    notesLookup (editNote [((0, 0, 0), "old"), ((0, 0, 1), "keep")] (0, 0, 0) "  gold  ")
        (0, 0, 1) = some "keep" := by
  have h := editNote_trim_truncate_clear [((0, 0, 0), "old"), ((0, 0, 1), "keep")]
    (0, 0, 0) "  gold  " (by decide)
  refine ⟨?_, ?_⟩
  · have h2 := h.2.1 (by decide)
    rw [h2]
    decide
  · have h4 := h.2.2.2 (0, 0, 1) (by decide)
    rw [h4]
    decide

/-! ## Claim C9: split-mode export x values -/

/-- Claim C9.  In split mode `export_to_csv` reads every cell's exported
x value as `self.current_values_x[c]` — the FULL (unsplit) x sequence
indexed by the cell's tab-local column index.  Hence for an annotated
cell on the second split tab the exported `X_Value` equals the
first-half value at that column index, while the cell's own x value is
the second-half entry `current_values_x[mid + c]`; with duplicate-free x
values the two always differ. -/
theorem export_split_tab2_first_half (s : AppState) (r c : ℕ) (t : String)
    (hmem : ((2, r, c), t) ∈ s.notes)
    (hn : 4 ≤ s.current_values_x.length)
    (hc : c < s.current_values_x.length - (s.current_values_x.length + 1) / 2)
    (_hr : r < s.current_values_y.length) :
    ∃ row ∈ exportRows s,
      row.note = t ∧ row.tab = 2 ∧
      row.xValue = s.current_values_x.getD c "" ∧
      row.xValue =
        (s.current_values_x.take ((s.current_values_x.length + 1) / 2)).getD c "" ∧
      (s.current_values_x.drop ((s.current_values_x.length + 1) / 2)).getD c "" =
        s.current_values_x.getD ((s.current_values_x.length + 1) / 2 + c) "" ∧
      (s.current_values_x.Nodup →
        row.xValue ≠
          (s.current_values_x.drop ((s.current_values_x.length + 1) / 2)).getD c "") := by
  set xs := s.current_values_x with hxsdef
  set mid := (xs.length + 1) / 2 with hmiddef
  have hcmid : c < mid := by omega
  have hcn : c < xs.length := by omega
  have hmidc : mid + c < xs.length := by omega
  have hperm := List.perm_insertionSort entryLe s.notes
  refine ⟨exportRow s ((2, r, c), t),
    List.mem_map_of_mem (exportRow s) (hperm.mem_iff.mpr hmem), rfl, rfl, rfl, ?_, ?_, ?_⟩
  · show xs.getD c "" = (xs.take mid).getD c ""
    simp [List.getD, List.getElem?_take, hcmid]
  · simp [List.getD, List.getElem?_drop]
  · intro hnd
    have h1 : xs.getD c "" = xs[c] := by
      simp [List.getD, List.getElem?_eq_getElem hcn]
    have h2 : (xs.drop mid).getD c "" = xs[mid + c] := by
      simp [List.getD, List.getElem?_drop, List.getElem?_eq_getElem hmidc]
    show xs.getD c "" ≠ (xs.drop mid).getD c ""
    rw [h1, h2]
    intro heq
    have := (List.Nodup.getElem_inj_iff hnd).mp heq
    omega

/-- A concrete split-mode state with a note on the second tab: 4 x
values (halves of size 2), a note at `(tab = 2, row = 0, col = 1)`. -/
def tab2State : AppState :=
  { x_axis_var := "Q-Pulse", y_axis_var := "Frequency", qpulse_mode := "Split",
    ranges := goldRanges, x_counts_var := "4", y_counts_var := "2",
    current_values_x := ["150", "166", "183", "200"],
    current_values_y := ["3800.0", "100.0"],
    current_x_param := "Q-Pulse", current_y_param := "Frequency",
    buttons := newGridKeys "Split" ["150", "166", "183", "200"] ["3800.0", "100.0"],
    notes := [((2, 0, 1), "hot")] }

/-- Witness for C9: the exported row for the tab-2 cell `(2, 0, 1)`
carries `X_Value = "166"` (first-half column 1) although the cell's own
x value is `"200"` (second-half column 1). -/
theorem export_split_tab2_first_half_witness :
    ∃ row ∈ exportRows tab2State,
      row.note = "hot" ∧ row.tab = 2 ∧
      row.xValue = tab2State.current_values_x.getD 1 "" ∧
      row.xValue =
        (tab2State.current_values_x.take 2).getD 1 "" ∧
      (tab2State.current_values_x.drop 2).getD 1 "" =
        tab2State.current_values_x.getD 3 "" ∧
      (tab2State.current_values_x.Nodup →
        row.xValue ≠ (tab2State.current_values_x.drop 2).getD 1 "") :=
  export_split_tab2_first_half tab2State 0 1 "hot" (by decide) (by decide)
    (by decide) (by decide)

/-! ## Claim C10: import bypasses the length bound -/

/-- Claim C10.  A note restored by `load_from_csv` is stored exactly as
read from the row (only whitespace-stripped), with no
`MAX_NOTE_LENGTH` truncation: when the stripped text is longer than the
bound, the stored note exceeds the bound — whereas any note stored
through `edit_note` satisfies it.  The bounded-length invariant
maintained by direct edits is therefore not preserved by import. -/
theorem load_bypasses_max_note_length (s : AppState) (row : Row) (c r : ℕ)
    (hxp : row.xParam = s.current_x_param)
    (hyq : row.yParam = s.current_y_param)
    (hcx : findIdxFrom row.xValue s.current_values_x = some c)
    (hry : findIdxFrom row.yValue s.current_values_y = some r)
    (hbtn : (row.tab, r, c) ∈ s.buttons)
    (hlong : MAX_NOTE_LENGTH < (pyStrip row.note).length) :
    (notesLookup (loadRow s row).notes (row.tab, r, c) = some (pyStrip row.note) ∧
      MAX_NOTE_LENGTH < (pyStrip row.note).length) ∧
    (∀ (notes : List (Key × String)) (k : Key) (txt : String),
      (notes.map Prod.fst).Nodup →
      ∀ t2, notesLookup (editNote notes k txt) k = some t2 →
        t2.length ≤ MAX_NOTE_LENGTH) := by
  refine ⟨⟨?_, hlong⟩, fun notes k txt hnd => editNote_stored_le notes k txt hnd⟩
  have hload : loadRow s row =
      { s with notes := notesInsert s.notes (row.tab, r, c) (pyStrip row.note) } := by
    simp [loadRow, hxp, hyq, hcx, hry, hbtn]
  rw [hload]
  exact notesLookup_insert_self s.notes (row.tab, r, c) (pyStrip row.note)

/-- A 513-character note (one over `MAX_NOTE_LENGTH`). -/
def bigNote : String := String.mk (List.replicate 513 'a')

theorem dropWhile_space_replicate_a (n : ℕ) :
    List.dropWhile isSpaceChar (List.replicate n 'a') = List.replicate n 'a' := by
  cases n with
  | zero => rfl
  | succ m => rw [List.replicate_succ, List.dropWhile_cons, if_neg (by decide)]

theorem pyStrip_replicate_a (n : ℕ) :
    pyStrip (String.mk (List.replicate n 'a')) = String.mk (List.replicate n 'a') := by
  unfold pyStrip
  rw [show (String.mk (List.replicate n 'a')).data = List.replicate n 'a' from rfl,
     dropWhile_space_replicate_a, List.reverse_replicate, dropWhile_space_replicate_a,
     List.reverse_replicate]

/-- A single-cell state for the C10 witness. -/
def longNoteState : AppState :=
  { x_axis_var := "Q-Pulse", y_axis_var := "Frequency", qpulse_mode := "Single",
    ranges := goldRanges, x_counts_var := "2", y_counts_var := "2",
    current_values_x := ["150"], current_values_y := ["3800.0"],
    current_x_param := "Q-Pulse", current_y_param := "Frequency",
    buttons := [(0, 0, 0)], notes := [] }

/-- The imported row carrying the 513-character note. -/
def longNoteRow : Row :=
  { note := bigNote, tab := 0, xParam := "Q-Pulse", xValue := "150",
    yParam := "Frequency", yValue := "3800.0" }

/-- Witness for C10: after restoring the row, the store holds the full
513-character note, exceeding `MAX_NOTE_LENGTH`. -/
theorem load_bypasses_max_note_length_witness :
    notesLookup (loadRow longNoteState longNoteRow).notes (0, 0, 0) = some bigNote ∧
    MAX_NOTE_LENGTH < bigNote.length := by
  have hstrip : pyStrip bigNote = bigNote := pyStrip_replicate_a 513
  have hlen : MAX_NOTE_LENGTH < bigNote.length := by
    show MAX_NOTE_LENGTH < (List.replicate 513 'a').length
    rw [List.length_replicate]
    decide
  have h := load_bypasses_max_note_length longNoteState longNoteRow 0 0 rfl rfl
    (by decide) (by decide) (by decide)
    (by show MAX_NOTE_LENGTH < (pyStrip bigNote).length; rw [hstrip]; exact hlen)
  refine ⟨?_, hlen⟩
  have h1 := h.1.1
  rw [show pyStrip longNoteRow.note = bigNote from hstrip] at h1
  exact h1

/-! ## Claims C5 / C7: the value generator -/

/-- The per-class rendering of `_generate_values` (the parameter's
formatting class): integer classes render `int(round(v))`, Line Interval
4 decimals, Frequency 1 decimal, default 2 decimals. -/
def classFmt (param : String) (v : PyF) : String :=
  if param ∈ intClassParams then toString (pyRound v)
  else if param = "Line Interval" then fmtFixed 4 v
  else if param = "Frequency" then fmtFixed 1 v
  else fmtFixed 2 v

/-- `classFmt` is determined by the rational value (for positive
denominators): it equals its ℚ-level twin. -/
theorem classFmt_val (param : String) (v : PyF) (hv : 0 < v.den) :
    classFmt param v = classFmtQ param v.val := by
  unfold classFmt classFmtQ
  by_cases h1 : param ∈ intClassParams
  · rw [if_pos h1, if_pos h1, pyRound_eq v hv]
  · rw [if_neg h1, if_neg h1]
    by_cases h2 : param = "Line Interval"
    · rw [if_pos h2, if_pos h2, fmtFixed_eq 4 v hv]
    · rw [if_neg h2, if_neg h2]
      by_cases h3 : param = "Frequency"
      · rw [if_pos h3, if_pos h3, fmtFixed_eq 1 v hv]
      · rw [if_neg h3, if_neg h3, fmtFixed_eq 2 v hv]

theorem parseUnsigned?_den_pos (l : List Char) (a : PyF)
    (h : parseUnsigned? l = some a) : 0 < a.den := by
  unfold parseUnsigned? at h
  split at h
  · split at h
    · cases h
      norm_num [PyF.ofInt]
    · cases h
  · split at h
    · cases h
      positivity
    · cases h

theorem parseFloat?_den_pos (s : String) (a : PyF)
    (h : parseFloat? s = some a) : 0 < a.den := by
  unfold parseFloat? at h
  split at h
  · rcases hu : parseUnsigned? _ with _ | u <;> rw [hu] at h
    · cases h
    · have := parseUnsigned?_den_pos _ u hu
      have ha : a = PyF.neg u := by
        cases h
        rfl
      rw [ha]
      simpa [PyF.neg] using this
  · exact parseUnsigned?_den_pos _ a h
  · exact parseUnsigned?_den_pos _ a h

/-- Counterexample to C7 as stated: in the degenerate `start == end` case
with an integer-class parameter, the code returns Python's `str(float)`
rendering (`"4000.0"`), not the parameter's formatting class rendering
(`"4000"`, integer-class without decimals). -/
theorem generateValues_degenerate_format_cex :
    generateValues "4000" "4000" "Speed" 2 = Except.ok ["4000.0", "4000.0"] ∧
    List.replicate 2 (classFmt "Speed" ⟨4000, 1⟩) = ["4000", "4000"] ∧
    generateValues "4000" "4000" "Speed" 2 ≠
      Except.ok (List.replicate 2 (classFmt "Speed" ⟨4000, 1⟩)) := by
  refine ⟨by decide, by decide, by decide⟩

/-- Claim C7 amended.  `generate(p, s, s, count)` is valid (not an
error) and returns `count` identical values; but only Frequency is
rendered in its formatting class (1 decimal) — every other parameter's
value is rendered as Python's default float string (`str(start)`,
trailing zeros dropped, at least one fractional digit), not in the
parameter's formatting class. -/
theorem generateValues_degenerate_repeats (startStr param : String) (counts : ℕ)
    (a : PyF) (ha : parseFloat? startStr = some a) :
    generateValues startStr startStr param counts =
      Except.ok (List.replicate counts
        (if param = "Frequency" then fmtFixed 1 a else pyStrFloat a)) := by
  have hbeq : a.beqv a = true := by simp [PyF.beqv]
  by_cases hf : param = "Frequency" <;>
    simp [generateValues, ha, hbeq, hf]

/-- Witness for the amended C7: `"4000"` to `"4000"` over 3 samples for
Speed gives three copies of `str(4000.0) = "4000.0"`. -/
theorem generateValues_degenerate_repeats_witness :
    generateValues "4000" "4000" "Speed" 3 =
      Except.ok (List.replicate 3
        (if "Speed" = "Frequency" then fmtFixed 1 ⟨4000, 1⟩ else pyStrFloat ⟨4000, 1⟩)) :=
  generateValues_degenerate_repeats "4000" "Speed" 3 ⟨4000, 1⟩ (by decide)

theorem getElem?_map_range {α : Type} (f : ℕ → α) (n i : ℕ) (h : i < n) :
    ((List.range n).map f)[i]? = some (f i) := by
  rw [List.getElem?_map]
  rw [show (List.range n)[i]? = some i from by simp [List.getElem?_range, h]]
  rfl

/-- Normal form of `_generate_values` in the non-degenerate case: the
interpolated samples, each rendered by the parameter's class. -/
theorem generateValues_nondegen (startStr endStr param : String) (counts : ℕ)
    (a b : PyF)
    (ha : parseFloat? startStr = some a) (hb : parseFloat? endStr = some b)
    (hne : a.beqv b = false) :
    generateValues startStr endStr param counts =
      Except.ok (((List.range counts).map (fun i : ℕ =>
        a.add ((PyF.ofInt (i : ℤ)).mul
          ((b.sub a).div (PyF.ofInt ((counts : ℤ) - 1)))))).map (classFmt param)) := by
  by_cases h1 : param ∈ intClassParams
  · simp [generateValues, ha, hb, hne, classFmt, h1]
  · by_cases h2 : param = "Line Interval"
    · simp [generateValues, ha, hb, hne, classFmt, h1, h2, intClassParams]
    · by_cases h3 : param = "Frequency"
      · simp [generateValues, ha, hb, hne, classFmt, h1, h2, h3, intClassParams]
      · simp [generateValues, ha, hb, hne, classFmt, h1, h2, h3]

/-- Claim C5.  For parseable bounds and `counts ≥ 2`, `_generate_values`
succeeds with exactly `counts` formatted value strings; when the bounds
differ the first element is the start value and the last element the end
value, each rendered by the parameter's formatting class (the linear
interpolation hits both endpoints exactly); when the bounds coincide all
elements render that single value.  Determinism is by construction: the
embedding (like the source) is a pure function of the range strings, the
parameter and the count. -/
theorem generateValues_length_endpoints (startStr endStr param : String)
    (counts : ℕ) (a b : PyF) (hc : 2 ≤ counts)
    (ha : parseFloat? startStr = some a) (hb : parseFloat? endStr = some b) :
    ∃ out, generateValues startStr endStr param counts = Except.ok out ∧
      out.length = counts ∧
      (a.beqv b = false →
        out[0]? = some (classFmt param a) ∧
        out[counts - 1]? = some (classFmt param b)) ∧
      (a.beqv b = true →
        out = List.replicate counts
          (if param = "Frequency" then fmtFixed 1 a else pyStrFloat a)) := by
  have hda : 0 < a.den := parseFloat?_den_pos _ _ ha
  have hdb : 0 < b.den := parseFloat?_den_pos _ _ hb
  by_cases hdeg : a.beqv b = true
  · refine ⟨List.replicate counts (if param = "Frequency" then fmtFixed 1 a else pyStrFloat a),
      ?_, by simp, ?_, fun _ => rfl⟩
    · by_cases hf : param = "Frequency" <;> simp [generateValues, ha, hb, hdeg, hf]
    · intro hfalse
      rw [hdeg] at hfalse
      cases hfalse
  · have hne : a.beqv b = false := by simpa using hdeg
    have hcount1 : (0 : ℤ) < (counts : ℤ) - 1 := by omega
    have hcq : ((counts : ℚ) - 1) ≠ 0 := by
      have h2q : (2 : ℚ) ≤ (counts : ℚ) := by exact_mod_cast hc
      intro hzero
      rw [sub_eq_zero] at hzero
      rw [hzero] at h2q
      norm_num at h2q
    set step := (b.sub a).div (PyF.ofInt ((counts : ℤ) - 1)) with hstepdef
    have hstepden : 0 < step.den := by
      rw [hstepdef]
      simp only [PyF.div, PyF.sub, PyF.ofInt]
      have h1 : (0 : ℤ) < b.den * a.den := mul_pos hdb hda
      exact mul_pos h1 hcount1
    have hstepval : step.val = (b.val - a.val) / ((counts : ℚ) - 1) := by
      rw [hstepdef, PyF.val_div _ _
        (by simp only [PyF.sub]; exact (mul_pos hdb hda).ne')
        (by norm_num [PyF.ofInt])
        (by simp only [PyF.ofInt]; omega)]
      rw [PyF.val_sub b a hdb.ne' hda.ne', PyF.val_ofInt]
      push_cast
      ring
    have hfden : ∀ i : ℕ, 0 < (a.add ((PyF.ofInt (i : ℤ)).mul step)).den := by
      intro i
      simp only [PyF.add, PyF.mul, PyF.ofInt]
      have h1 : (0 : ℤ) < 1 * step.den := by simpa using hstepden
      exact mul_pos hda h1
    have hfval : ∀ i : ℕ, (a.add ((PyF.ofInt (i : ℤ)).mul step)).val =
        a.val + (i : ℚ) * ((b.val - a.val) / ((counts : ℚ) - 1)) := by
      intro i
      rw [PyF.val_add a _ hda.ne'
        (by simp only [PyF.mul, PyF.ofInt]
            have h1 : (0 : ℤ) < 1 * step.den := by simpa using hstepden
            exact h1.ne')]
      rw [PyF.val_mul _ _ (by norm_num [PyF.ofInt]) hstepden.ne', PyF.val_ofInt, hstepval]
      push_cast
      ring
    refine ⟨_, generateValues_nondegen startStr endStr param counts a b ha hb hne,
      by simp, fun _ => ⟨?_, ?_⟩, ?_⟩
    · have h0 : classFmt param (a.add ((PyF.ofInt ((0 : ℕ) : ℤ)).mul step)) =
          classFmt param a := by
        rw [classFmt_val _ _ (hfden 0), classFmt_val _ _ hda, hfval 0]
        norm_num
      rw [List.map_map, getElem?_map_range _ counts 0 (by omega)]
      simp only [Function.comp_apply]
      rw [h0]
    · have hcast : ((counts - 1 : ℕ) : ℚ) = (counts : ℚ) - 1 := by
        have h1 : 1 ≤ counts := by omega
        rw [Nat.cast_sub h1]
        norm_num
      have hlast : classFmt param (a.add ((PyF.ofInt ((counts - 1 : ℕ) : ℤ)).mul step)) =
          classFmt param b := by
        rw [classFmt_val _ _ (hfden (counts - 1)), classFmt_val _ _ hdb,
          hfval (counts - 1), hcast]
        have hvb : a.val + ((counts : ℚ) - 1) * ((b.val - a.val) / ((counts : ℚ) - 1)) =
            b.val := by
          field_simp
        rw [hvb]
      rw [List.map_map, getElem?_map_range _ counts (counts - 1) (by omega)]
      simp only [Function.comp_apply]
      rw [hlast]
    · intro htrue
      rw [hne] at htrue
      cases htrue

/-- Witness for C5: the spec's own example, `generate(Frequency, 3800.0,
100.0, 20)` — 20 one-decimal values, first `"3800.0"`, last `"100.0"`. -/
theorem generateValues_length_endpoints_witness :
    ∃ out, generateValues "3800.0" "100.0" "Frequency" 20 = Except.ok out ∧
      out.length = 20 ∧
      (PyF.beqv ⟨38000, 10⟩ ⟨1000, 10⟩ = false →
        out[0]? = some (classFmt "Frequency" ⟨38000, 10⟩) ∧
        out[19]? = some (classFmt "Frequency" ⟨1000, 10⟩)) ∧
      (PyF.beqv ⟨38000, 10⟩ ⟨1000, 10⟩ = true →
        out = List.replicate 20
          (if "Frequency" = "Frequency" then fmtFixed 1 ⟨38000, 10⟩
           else pyStrFloat ⟨38000, 10⟩)) :=
  generateValues_length_endpoints "3800.0" "100.0" "Frequency" 20 ⟨38000, 10⟩ ⟨1000, 10⟩
    (by omega) (by decide) (by decide)

/-! ## Claim C2: import row matching (corrected) -/

/-- Search spec for the grid_v1.py frequency matcher: a hit means the
label at the found index parses and agrees with the stored value at 1
decimal place. -/
theorem v1FreqGo_spec (f : PyF) (labels : List String) (i : ℕ)
    (h : v1FreqGo f labels = some i) :
    ∃ lf, parseFloat? (labels.getD i "") = some lf ∧ round1i lf = round1i f := by
  induction labels generalizing i with
  | nil => cases h
  | cons l rest ih =>
    unfold v1FreqGo at h
    rcases hl : parseFloat? l with _ | lf <;> simp only [hl] at h
    · cases h
    · by_cases hr2 : round1i lf = round1i f
      · rw [if_pos hr2] at h
        cases h
        exact ⟨lf, hl, hr2⟩
      · rw [if_neg hr2] at h
        rcases hgo : v1FreqGo f rest with _ | j <;> rw [hgo] at h
        · simp at h
        · have hj : j + 1 = i := by simpa using h
          subst hj
          simpa [List.getD] using ih j hgo

/-- A single-column state whose generated x value is rendered `"100.00"`. -/
def tolState : AppState :=
  { x_axis_var := "Q-Pulse", y_axis_var := "Frequency", qpulse_mode := "Single",
    ranges := goldRanges, x_counts_var := "2", y_counts_var := "2",
    current_values_x := ["100.00"], current_values_y := ["3800.0"],
    current_x_param := "Q-Pulse", current_y_param := "Frequency",
    buttons := [(0, 0, 0)], notes := [] }

/-- A stored row whose x value `"100.0"` denotes the same number as the
generated `"100.00"` at 1 decimal place (indeed exactly). -/
def tolRow : Row :=
  { note := "n", tab := 0, xParam := "Q-Pulse", xValue := "100.0",
    yParam := "Frequency", yValue := "3800.0" }

/-- Counterexample to C2 as stated for grid_v2: the spec's tolerant
matcher locates column 0 for the stored value `"100.0"` against the
generated `["100.00"]`, but `load_from_csv` compares the strings exactly,
finds no index, and silently skips the row — the decoder does NOT locate
cells by tolerant 1-decimal numeric matching. -/
theorem loadRow_not_tolerant_cex :
    specTolerantFind tolState.current_values_x tolRow.xValue = some 0 ∧
    findIdxFrom tolRow.xValue tolState.current_values_x = none ∧
    loadRow tolState tolRow = tolState ∧
    (loadRow tolState tolRow).notes = [] := by
  refine ⟨by decide, by decide, by decide, by decide⟩

/-- Claim C2 amended.  In grid_v2 the decoder locates `(row, col)` by
EXACT string equality between the stored x/y value and the freshly
generated sequence values (a found index always carries the identical
string); rows whose axis-parameter identity does not match the current
axes, and rows for which no index matches, are silently skipped — the
state is returned unchanged, never an error.  Tolerant numeric matching
exists only in grid_v1: its frequency matcher parses both sides as
floats and compares them rounded to 1 decimal place, and its q-pulse
matcher rounds the stored value to the nearest integer and looks it up
by membership. -/
theorem loadRow_exact_match_and_skip :
    (∀ (s : AppState) (row : Row),
      row.xParam ≠ s.current_x_param ∨ row.yParam ≠ s.current_y_param →
      loadRow s row = s) ∧
    (∀ (s : AppState) (row : Row),
      findIdxFrom row.xValue s.current_values_x = none ∨
      findIdxFrom row.yValue s.current_values_y = none →
      loadRow s row = s) ∧
    (∀ (x : String) (xs : List String) (i : ℕ),
      findIdxFrom x xs = some i → xs.getD i "" = x) ∧
    (∀ (labels : List String) (freqStr : String) (i : ℕ),
      v1LocateFreq labels freqStr = some i →
      ∃ f lf, parseFloat? freqStr = some f ∧
        parseFloat? (labels.getD i "") = some lf ∧ round1i lf = round1i f) ∧
    (∀ (q1 q2 : List ℤ) (qStr : String) (tab c : ℕ),
      v1LocateQ q1 q2 qStr = some (tab, c) →
      ∃ q, parseFloat? qStr = some q ∧
        ((tab = 1 ∧ pyRound q ∈ q1) ∨ (tab = 2 ∧ pyRound q ∈ q2))) := by
  refine ⟨?_, ?_, findIdxFrom_eq_some, ?_, ?_⟩
  · intro s row h
    unfold loadRow
    rw [if_pos h]
  · intro s row h
    by_cases hp : row.xParam ≠ s.current_x_param ∨ row.yParam ≠ s.current_y_param
    · unfold loadRow
      rw [if_pos hp]
    · rcases h with h | h
      · simp [loadRow, hp, h]
      · rcases hx2 : findIdxFrom row.xValue s.current_values_x with _ | c <;>
          simp [loadRow, hp, h, hx2]
  · intro labels freqStr i h
    unfold v1LocateFreq at h
    rcases hf : parseFloat? freqStr with _ | f <;> rw [hf] at h
    · cases h
    · obtain ⟨lf, hlf, hr2⟩ := v1FreqGo_spec f labels i h
      exact ⟨f, lf, rfl, hlf, hr2⟩
  · intro q1 q2 qStr tab c h
    unfold v1LocateQ at h
    rcases hq : parseFloat? qStr with _ | q <;> simp only [hq] at h
    · cases h
    · refine ⟨q, rfl, ?_⟩
      by_cases h1 : pyRound q ∈ q1
      · rw [if_pos h1] at h
        cases h
        exact Or.inl ⟨rfl, h1⟩
      · rw [if_neg h1] at h
        by_cases h2 : pyRound q ∈ q2
        · rw [if_pos h2] at h
          cases h
          exact Or.inr ⟨rfl, h2⟩
        · rw [if_neg h2] at h
          cases h

/-- Witness for the amended C2: a mismatched axis name is silently
skipped; an exact-match index returns the identical string; grid_v1's
frequency matcher accepts `"3800.00"` against the label `"3800.0"`
(1-decimal tolerance across formatting drift). -/
theorem loadRow_exact_match_and_skip_witness :
    loadRow tolState { tolRow with xParam := "Power" } = tolState ∧
    ["3800.0"].getD 0 "" = "3800.0" ∧
    (∃ f lf, parseFloat? "3800.00" = some f ∧
      parseFloat? (["3800.0"].getD 0 "") = some lf ∧ round1i lf = round1i f) := by
  have h := loadRow_exact_match_and_skip
  exact ⟨h.1 tolState { tolRow with xParam := "Power" } (by decide),
    h.2.2.1 "3800.0" ["3800.0"] 0 (by decide),
    h.2.2.2.1 ["3800.0"] "3800.00" 0 (by decide)⟩

end Laser
